import Mathlib

/-!
# Task Queue Engine — verification development

Shallow embedding of the server-side task-queue engine: the data model
(`shared/taskQueueTypes.ts`), the agent invoker and scheduler
(`TaskScheduler.ts`), the durable store (`RedisQueueStore.ts`) and the
HTTP handlers (`backend/handlers/taskQueue.ts`).

Modelling conventions:
* TypeScript string-literal unions become inductive types.
* Optional fields become `Option`; JavaScript `undefined` is `none`.
* Timestamps (`Date.now()`) are natural numbers supplied as explicit
  arguments where the code reads the clock.
* `JSON.stringify` / `JSON.parse` round-trips of nested objects
  (settings, metrics, result, error, metadata) are modelled by storing
  the value itself; the store model keeps the empty-string-encodes-absent
  convention through `Option` plus explicit truthiness checks.
* The floating-point `averageTaskDuration` metric is outside the model.
-/

inductive TaskStatus
  | pending
  | queued
  | in_progress
  | completed
  | failed
  | retrying
  | cancelled
deriving DecidableEq, Repr

inductive TaskErrorType
  | execution
  | timeout
  | network
  | abort
deriving DecidableEq, Repr

inductive TaskResultType
  | success
  | partialSuccess
deriving DecidableEq, Repr

structure TaskResult where
  type : TaskResultType
  content : String
  sessionId : Option String
  completedAt : Nat
deriving DecidableEq, Repr

structure TaskError where
  type : TaskErrorType
  message : String
  retryable : Bool
  occurredAt : Nat
deriving DecidableEq, Repr

inductive TaskComplexity
  | low
  | medium
  | high
deriving DecidableEq, Repr

inductive CreatedBy
  | orchestrator
  | user
deriving DecidableEq, Repr

structure TaskMetadata where
  parentQueueId : String
  createdBy : CreatedBy
  requestId : Option String
  sessionId : Option String
deriving DecidableEq, Repr

structure QueueTask where
  id : String
  agentId : String
  message : String
  status : TaskStatus
  priority : Int
  estimatedComplexity : Option TaskComplexity
  retryCount : Nat
  maxRetries : Nat
  createdAt : Nat
  startedAt : Option Nat
  completedAt : Option Nat
  result : Option TaskResult
  error : Option TaskError
  metadata : Option TaskMetadata
deriving DecidableEq, Repr

structure TaskQueueSettings where
  maxConcurrency : Nat
  retryCount : Nat
  retryDelay : Nat
  timeoutPerTask : Nat
deriving DecidableEq, Repr

/-- Queue metrics snapshot (`TaskQueueMetrics`); the floating-point
`averageTaskDuration` / `estimatedTimeRemaining` fields are not modelled. -/
structure TaskQueueMetrics where
  totalTasks : Nat
  completedTasks : Nat
  failedTasks : Nat
  pendingTasks : Nat
  inProgressTasks : Nat
deriving DecidableEq, Repr

inductive QueueStatus
  | idle
  | running
  | paused
  | completed
  | failed
deriving DecidableEq, Repr

structure TaskQueue where
  id : String
  name : String
  description : Option String
  tasks : List QueueTask
  settings : TaskQueueSettings
  status : QueueStatus
  createdAt : Nat
  startedAt : Option Nat
  completedAt : Option Nat
  metrics : TaskQueueMetrics
deriving DecidableEq, Repr

/-- `TaskScheduler.calculateMetrics` (TaskScheduler service): counts by
status over `queue.tasks`; `pendingTasks` counts both `pending` and
`queued`; `retrying` and `cancelled` tasks are counted only in
`totalTasks`. -/
def calculateMetrics (queue : TaskQueue) : TaskQueueMetrics :=
  let tasks := queue.tasks
  { totalTasks := tasks.length
    completedTasks := (tasks.filter (fun t => t.status == TaskStatus.completed)).length
    failedTasks := (tasks.filter (fun t => t.status == TaskStatus.failed)).length
    pendingTasks := (tasks.filter (fun t =>
      t.status == TaskStatus.pending || t.status == TaskStatus.queued)).length
    inProgressTasks := (tasks.filter (fun t => t.status == TaskStatus.in_progress)).length }

lemma metrics_partition (l : List QueueTask) :
    (l.filter (fun t => t.status == TaskStatus.completed)).length
      + (l.filter (fun t => t.status == TaskStatus.failed)).length
      + (l.filter (fun t =>
          t.status == TaskStatus.pending || t.status == TaskStatus.queued)).length
      + (l.filter (fun t => t.status == TaskStatus.in_progress)).length
      + (l.filter (fun t =>
          t.status == TaskStatus.retrying || t.status == TaskStatus.cancelled)).length
      = l.length := by
  induction l with
  | nil => simp
  | cons t l ih =>
    cases h : t.status <;>
      simp [List.filter_cons, h] <;> omega

/-- C10: in every `calculateMetrics` snapshot,
`completedTasks + failedTasks + pendingTasks + inProgressTasks ≤ totalTasks`,
strictly less exactly when some task is `retrying` or `cancelled`. -/
theorem calculateMetrics_sum_le_total (q : TaskQueue) :
    (calculateMetrics q).completedTasks + (calculateMetrics q).failedTasks
        + (calculateMetrics q).pendingTasks + (calculateMetrics q).inProgressTasks
      ≤ (calculateMetrics q).totalTasks
    ∧ ((calculateMetrics q).completedTasks + (calculateMetrics q).failedTasks
        + (calculateMetrics q).pendingTasks + (calculateMetrics q).inProgressTasks
      < (calculateMetrics q).totalTasks
      ↔ ∃ t ∈ q.tasks,
          t.status = TaskStatus.retrying ∨ t.status = TaskStatus.cancelled) := by
  have hpart := metrics_partition q.tasks
  have hpos :
      0 < (q.tasks.filter (fun t =>
          t.status == TaskStatus.retrying || t.status == TaskStatus.cancelled)).length
      ↔ ∃ t ∈ q.tasks,
          t.status = TaskStatus.retrying ∨ t.status = TaskStatus.cancelled := by
    rw [List.length_pos]
    constructor
    · intro h
      rcases List.exists_mem_of_ne_nil _ h with ⟨t, ht⟩
      have := List.of_mem_filter ht
      exact ⟨t, List.mem_of_mem_filter ht, by
        simpa [decide_eq_true_eq] using this⟩
    · rintro ⟨t, ht, hs⟩
      intro hnil
      have : t ∈ q.tasks.filter (fun t =>
          t.status == TaskStatus.retrying || t.status == TaskStatus.cancelled) := by
        refine List.mem_filter.2 ⟨ht, ?_⟩
        simpa [decide_eq_true_eq] using hs
      simp [hnil] at this
  constructor
  · simp only [calculateMetrics]
    omega
  · rw [← hpos]
    simp only [calculateMetrics]
    omega

/-- Stable insertion into a list sorted by ascending priority. Together
with `sortByPriority` this models the stable JavaScript
`pendingTasks.sort((a, b) => a.priority - b.priority)`. -/
def insertByPriority (t : QueueTask) : List QueueTask → List QueueTask
  | [] => [t]
  | u :: us =>
      if t.priority ≤ u.priority then t :: u :: us else u :: insertByPriority t us

def sortByPriority : List QueueTask → List QueueTask
  | [] => []
  | t :: ts => insertByPriority t (sortByPriority ts)

/-- Body of `TaskScheduler.getReadyTasks` over the queue's task list:
compute `availableSlots = maxConcurrency - runningTasks.size`; if no
slot is free return nothing, otherwise filter tasks with status
`pending` or `queued`, sort ascending by priority (stably) and take the
first `availableSlots`. -/
def readyFromTasks (runningCount : Nat) (tasks : List QueueTask)
    (maxConcurrency : Nat) : List QueueTask :=
  let availableSlots : Int := (maxConcurrency : Int) - (runningCount : Int)
  if availableSlots ≤ 0 then
    []
  else
    let pendingTasks := tasks.filter (fun t =>
      t.status == TaskStatus.pending || t.status == TaskStatus.queued)
    (sortByPriority pendingTasks).take availableSlots.toNat

/-- `TaskScheduler.getReadyTasks`; the size of the scheduler's
`runningTasks` map is passed explicitly. -/
def getReadyTasks (runningCount : Nat) (queue : TaskQueue) (maxConcurrency : Nat) :
    List QueueTask :=
  readyFromTasks runningCount queue.tasks maxConcurrency

lemma insertByPriority_perm (t : QueueTask) (l : List QueueTask) :
    List.Perm (insertByPriority t l) (t :: l) := by
  induction l with
  | nil => simp [insertByPriority]
  | cons u us ih =>
    by_cases h : t.priority ≤ u.priority
    · simp [insertByPriority, h]
    · simp only [insertByPriority, if_neg h]
      exact List.Perm.trans (ih.cons u) (List.Perm.swap t u us)

lemma sortByPriority_perm (l : List QueueTask) : List.Perm (sortByPriority l) l := by
  induction l with
  | nil => simp [sortByPriority]
  | cons t ts ih =>
    exact List.Perm.trans (insertByPriority_perm t (sortByPriority ts)) (ih.cons t)

lemma insertByPriority_pairwise (t : QueueTask) (l : List QueueTask)
    (h : l.Pairwise (fun a b => a.priority ≤ b.priority)) :
    (insertByPriority t l).Pairwise (fun a b => a.priority ≤ b.priority) := by
  induction l with
  | nil => simp [insertByPriority]
  | cons u us ih =>
    rcases List.pairwise_cons.1 h with ⟨hu, hus⟩
    by_cases hle : t.priority ≤ u.priority
    · simp only [insertByPriority, if_pos hle]
      refine List.pairwise_cons.2 ⟨?_, h⟩
      intro b hb
      rcases List.mem_cons.1 hb with rfl | hb
      · exact hle
      · exact le_trans hle (hu b hb)
    · simp only [insertByPriority, if_neg hle]
      refine List.pairwise_cons.2 ⟨?_, ih hus⟩
      intro b hb
      have hb' := (insertByPriority_perm t us).mem_iff.1 hb
      rcases List.mem_cons.1 hb' with rfl | hb'
      · omega
      · exact hu b hb'

lemma sortByPriority_pairwise (l : List QueueTask) :
    (sortByPriority l).Pairwise (fun a b => a.priority ≤ b.priority) := by
  induction l with
  | nil => simp [sortByPriority]
  | cons t ts ih => exact insertByPriority_pairwise t (sortByPriority ts) ih

/-- C7: every `getReadyTasks` selection contains only `pending`/`queued`
tasks, has size at most `maxConcurrency` minus the number of running
tasks, and no selected task has strictly greater priority than an
unselected `pending`/`queued` task. -/
theorem getReadyTasks_sound (runningCount : Nat) (queue : TaskQueue)
    (maxConcurrency : Nat) :
    (∀ t ∈ getReadyTasks runningCount queue maxConcurrency,
        t.status = TaskStatus.pending ∨ t.status = TaskStatus.queued)
    ∧ (getReadyTasks runningCount queue maxConcurrency).length
        ≤ maxConcurrency - runningCount
    ∧ (∀ t ∈ getReadyTasks runningCount queue maxConcurrency,
        ∀ u ∈ queue.tasks,
          (u.status = TaskStatus.pending ∨ u.status = TaskStatus.queued) →
          u ∉ getReadyTasks runningCount queue maxConcurrency →
          t.priority ≤ u.priority) := by
  by_cases hslots : ((maxConcurrency : Int) - (runningCount : Int)) ≤ 0
  · refine ⟨?_, ?_, ?_⟩ <;> simp [getReadyTasks, readyFromTasks, hslots]
  · have hsel : getReadyTasks runningCount queue maxConcurrency
        = (sortByPriority (queue.tasks.filter (fun t =>
            t.status == TaskStatus.pending || t.status == TaskStatus.queued))).take
          ((maxConcurrency : Int) - (runningCount : Int)).toNat := by
      simp [getReadyTasks, readyFromTasks, hslots]
    set pq := queue.tasks.filter (fun t =>
      t.status == TaskStatus.pending || t.status == TaskStatus.queued) with hpq
    set k := ((maxConcurrency : Int) - (runningCount : Int)).toNat with hk
    have hmem_sorted : ∀ x ∈ sortByPriority pq, x ∈ pq := fun x hx =>
      (sortByPriority_perm pq).mem_iff.1 hx
    refine ⟨?_, ?_, ?_⟩
    · intro t ht
      rw [hsel] at ht
      have : t ∈ pq := hmem_sorted t (List.mem_of_mem_take ht)
      have := List.of_mem_filter this
      simpa [decide_eq_true_eq] using this
    · rw [hsel]
      calc ((sortByPriority pq).take k).length ≤ k := List.length_take_le k _
        _ ≤ maxConcurrency - runningCount := by
            rw [hk, Int.toNat_sub]
    · intro t ht u hu hustat hunsel
      rw [hsel] at ht hunsel
      have humem : u ∈ pq := by
        refine List.mem_filter.2 ⟨hu, ?_⟩
        simpa [decide_eq_true_eq] using hustat
      have humem' : u ∈ sortByPriority pq := (sortByPriority_perm pq).mem_iff.2 humem
      have hsplit := List.take_append_drop k (sortByPriority pq)
      have hudrop : u ∈ (sortByPriority pq).drop k := by
        rcases (List.mem_append.1 (by rw [hsplit]; exact humem')) with h | h
        · exact absurd h hunsel
        · exact h
      have hpw := sortByPriority_pairwise pq
      rw [← hsplit] at hpw
      exact (List.pairwise_append.1 hpw).2.2 t ht u hudrop

/-! ## Agent invoker (`executeAgentHttpRequest` / `executeTaskAsync`) -/

structure AgentRef where
  id : String
  apiEndpoint : String
  workingDirectory : String
deriving DecidableEq, Repr

/-- One content block of an embedded assistant message (`block.text`). -/
structure ClaudeContentBlock where
  text : Option String
deriving DecidableEq, Repr

/-- The payload of a `claude_json` frame as far as `executeTaskAsync`
inspects it: `data.type`, `data.sessionId`, and `data.message?.content`
(collapsed to `none` when either `message` or `content` is absent). -/
structure ClaudeData where
  dataType : Option String
  sessionId : Option String
  messageContent : Option (List ClaudeContentBlock)
deriving DecidableEq, Repr

/-- A parsed newline-delimited JSON frame (`StreamResponse`): the invoker
recognizes `claude_json`, `error`, `aborted`, `done`; any other `type`
becomes `other` and is ignored by the consumer. -/
inductive StreamResponse
  | claude_json (data : Option ClaudeData)
  | error (error : Option String)
  | aborted
  | done
  | other
deriving DecidableEq, Repr

/-- One outcome of `reader.read()` raced against the 30-second timeout:
a chunk of parsed lines (`none` entries are malformed JSON, skipped), the
read deadline firing, an abort rejection, or end of stream. -/
inductive ReadEvent
  | chunk (lines : List (Option StreamResponse))
  | readTimeout
  | abortDuringRead
  | eof
deriving DecidableEq, Repr

/-- Environment behaviour of the `fetch` call: a response with a status,
body presence and a sequence of reads, or a rejection (abort or
transport failure). -/
inductive FetchResult
  | success (status : Nat) (hasBody : Bool) (reads : List ReadEvent)
  | abortError
  | transportError (msg : String)
deriving DecidableEq, Repr

/-- `response.ok`: status in the 2xx range. -/
def statusOk (status : Nat) : Bool :=
  200 ≤ status && status ≤ 299

/-- The error message thrown for a non-2xx response, by status class
(401/403 authentication, ≥ 500 server error, other). -/
def httpErrorMessage (agentId : String) (status : Nat) (errorText : String) : String :=
  if status == 401 || status == 403 then
    "Authentication failed for agent " ++ agentId ++ ". Status: " ++ toString status
  else if 500 ≤ status then
    "Agent " ++ agentId ++ " server error (" ++ toString status ++ "): " ++ errorText
  else
    "HTTP error from agent " ++ agentId ++ "! status: " ++ toString status

mutual

/-- The body-reading loop of `executeAgentHttpRequest`: each read either
ends the stream (`eof`, then the generator yields a final `done`), times
out or aborts (the thrown error reaches the outer catch, which yields
`error` / `aborted` and ends the generator), or delivers lines. -/
def processReads : List ReadEvent → List StreamResponse
  | [] => [StreamResponse.done]
  | ReadEvent.eof :: _ => [StreamResponse.done]
  | ReadEvent.readTimeout :: _ =>
      [StreamResponse.error (some "Stream read timeout after 30 seconds")]
  | ReadEvent.abortDuringRead :: _ => [StreamResponse.aborted]
  | ReadEvent.chunk lines :: rest => processLines lines rest

/-- The per-chunk line loop: malformed lines are skipped; each parsed
frame is yielded; a `done` or `error` frame ends the generator. -/
def processLines : List (Option StreamResponse) → List ReadEvent → List StreamResponse
  | [], rest => processReads rest
  | none :: ls, rest => processLines ls rest
  | some r :: ls, rest =>
      match r with
      | StreamResponse.done => [StreamResponse.done]
      | StreamResponse.error m => [StreamResponse.error m]
      | r => r :: processLines ls rest

end

/-- `executeAgentHttpRequest` (TaskScheduler service): the sequence of
frames the generator yields to its consumer, as a function of the fetch
environment. Every exception path is caught by the outer handler, which
yields a final `aborted` frame for `AbortError` and a final `error`
frame otherwise. -/
def executeAgentHttpRequest (agent : AgentRef) (f : FetchResult)
    (errorText : String) : List StreamResponse :=
  match f with
  | FetchResult.abortError => [StreamResponse.aborted]
  | FetchResult.transportError msg => [StreamResponse.error (some msg)]
  | FetchResult.success status hasBody reads =>
      if ¬ statusOk status then
        [StreamResponse.error (some (httpErrorMessage agent.id status errorText))]
      else if ¬ hasBody then
        [StreamResponse.error (some "No response body from agent endpoint")]
      else
        processReads reads

/-- Text-accumulation over the blocks of one assistant message
(truthiness: empty `block.text` is skipped). -/
def concatBlockTexts (blocks : List ClaudeContentBlock) : String :=
  blocks.foldl (fun acc b =>
    match b.text with
    | some s => if s.isEmpty then acc else acc ++ s
    | none => acc) ""

structure TaskAccum where
  fullContent : String
  sessionId : Option String
deriving DecidableEq, Repr

/-- The consumer loop of `executeTaskAsync`: folds the yielded frames,
accumulating assistant text and session id; an `error` frame returns a
retryable execution `TaskError`, an `aborted` frame a non-retryable
abort `TaskError`; stream end returns a success `TaskResult`. -/
def consumeFrames (now : Nat) : List StreamResponse → TaskAccum → TaskResult ⊕ TaskError
  | [], acc =>
      Sum.inl { type := TaskResultType.success, content := acc.fullContent,
                sessionId := acc.sessionId, completedAt := now }
  | fr :: frs, acc =>
      match fr with
      | StreamResponse.claude_json (some data) =>
          let acc1 :=
            match data.sessionId with
            | some s => if s.isEmpty then acc else { acc with sessionId := some s }
            | none => acc
          let acc2 :=
            if data.dataType = some "assistant" then
              match data.messageContent with
              | some blocks =>
                  { acc1 with fullContent := acc1.fullContent ++ concatBlockTexts blocks }
              | none => acc1
            else acc1
          consumeFrames now frs acc2
      | StreamResponse.claude_json none => consumeFrames now frs acc
      | StreamResponse.error e =>
          Sum.inr { type := TaskErrorType.execution, message := e.getD "Unknown error",
                    retryable := true, occurredAt := now }
      | StreamResponse.aborted =>
          Sum.inr { type := TaskErrorType.abort, message := "Task was aborted",
                    retryable := false, occurredAt := now }
      | StreamResponse.done => consumeFrames now frs acc
      | StreamResponse.other => consumeFrames now frs acc

/-- `executeTaskAsync`: drive `executeAgentHttpRequest` and aggregate the
response into a `TaskResult` or a `TaskError`. -/
def executeTaskAsync (agent : AgentRef) (f : FetchResult) (errorText : String)
    (now : Nat) : TaskResult ⊕ TaskError :=
  consumeFrames now (executeAgentHttpRequest agent f errorText)
    { fullContent := "", sessionId := none }

/-- The status classification claim C1 asserts, written from the spec's
words (for comparison with the code's behaviour): 401/403 → `execution`,
non-retryable; ≥ 500 → `network`, retryable; any other non-2xx →
`execution`, non-retryable. -/
def specStatusClassification (status : Nat) : TaskErrorType × Bool :=
  if status == 401 || status == 403 then (TaskErrorType.execution, false)
  else if 500 ≤ status then (TaskErrorType.network, true)
  else (TaskErrorType.execution, false)

/-- The proposition claim C1 makes about the code: every non-2xx agent
response is classified per `specStatusClassification`. -/
def invokerClassifiesPerSpec : Prop :=
  ∀ (agent : AgentRef) (status : Nat) (hasBody : Bool) (reads : List ReadEvent)
    (errorText : String) (now : Nat),
    statusOk status = false →
    ∃ e : TaskError,
      executeTaskAsync agent (FetchResult.success status hasBody reads) errorText now
        = Sum.inr e
      ∧ e.type = (specStatusClassification status).1
      ∧ e.retryable = (specStatusClassification status).2

/-- C1 counterexample: at status 401 the invoker returns a **retryable**
`execution` error (the thrown authentication error is funnelled through
the generator's catch into an `error` frame, which `executeTaskAsync`
always maps to `retryable: true`), so the spec's classification does not
hold. -/
theorem invoker_classification_counterexample : ¬ invokerClassifiesPerSpec := by
  intro h
  rcases h ⟨"a", "e", "w"⟩ 401 true [] "" 0 (by decide) with ⟨e, he, htype, hret⟩
  have hval :
      executeTaskAsync ⟨"a", "e", "w"⟩ (FetchResult.success 401 true []) "" 0
        = Sum.inr { type := TaskErrorType.execution,
                    message := httpErrorMessage "a" 401 "",
                    retryable := true, occurredAt := 0 } := rfl
  rw [hval] at he
  obtain rfl : _ = e := by injection he
  simp [specStatusClassification] at hret

/-- C1 amended: for every non-2xx status — 401/403, 5xx and all others
alike — the invoker yields a single `error` frame (whose message encodes
the status class) and `executeTaskAsync` returns
`TaskError{type: execution, retryable: true}`. -/
theorem executeTaskAsync_non2xx (agent : AgentRef) (status : Nat) (hasBody : Bool)
    (reads : List ReadEvent) (errorText : String) (now : Nat)
    (h : statusOk status = false) :
    executeTaskAsync agent (FetchResult.success status hasBody reads) errorText now
      = Sum.inr { type := TaskErrorType.execution,
                  message := httpErrorMessage agent.id status errorText,
                  retryable := true, occurredAt := now } := by
  simp [executeTaskAsync, executeAgentHttpRequest, h, consumeFrames, Option.getD]

theorem executeTaskAsync_non2xx_witness :
    statusOk 503 = false
    ∧ executeTaskAsync ⟨"a1", "ep", "wd"⟩ (FetchResult.success 503 true []) "oops" 7
        = Sum.inr { type := TaskErrorType.execution,
                    message := httpErrorMessage "a1" 503 "oops",
                    retryable := true, occurredAt := 7 } :=
  ⟨by decide, executeTaskAsync_non2xx ⟨"a1", "ep", "wd"⟩ 503 true [] "oops" 7 (by decide)⟩

/-- A frame on which the generator ends: `done`, `error` or the
caught-abort `aborted`. -/
def isTerminalFrame (f : StreamResponse) : Prop :=
  f = StreamResponse.done ∨ (∃ m, f = StreamResponse.error m) ∨ f = StreamResponse.aborted

lemma processLines_last (rest : List ReadEvent)
    (hrest : ∃ pre last, processReads rest = pre ++ [last] ∧ isTerminalFrame last) :
    ∀ lines, ∃ pre last, processLines lines rest = pre ++ [last] ∧ isTerminalFrame last := by
  intro lines
  induction lines with
  | nil => simpa [processLines] using hrest
  | cons l ls ih =>
    cases l with
    | none => simpa [processLines] using ih
    | some r =>
      cases r with
      | done => exact ⟨[], StreamResponse.done, by simp [processLines], Or.inl rfl⟩
      | error m =>
          exact ⟨[], StreamResponse.error m, by simp [processLines],
            Or.inr (Or.inl ⟨m, rfl⟩)⟩
      | claude_json d =>
          rcases ih with ⟨pre, last, heq, hterm⟩
          exact ⟨StreamResponse.claude_json d :: pre, last, by simp [processLines, heq],
            hterm⟩
      | aborted =>
          rcases ih with ⟨pre, last, heq, hterm⟩
          exact ⟨StreamResponse.aborted :: pre, last, by simp [processLines, heq], hterm⟩
      | other =>
          rcases ih with ⟨pre, last, heq, hterm⟩
          exact ⟨StreamResponse.other :: pre, last, by simp [processLines, heq], hterm⟩

lemma processReads_last (reads : List ReadEvent) :
    ∃ pre last, processReads reads = pre ++ [last] ∧ isTerminalFrame last := by
  induction reads with
  | nil => exact ⟨[], StreamResponse.done, by simp [processReads], Or.inl rfl⟩
  | cons ev rest ih =>
    cases ev with
    | eof => exact ⟨[], StreamResponse.done, by simp [processReads], Or.inl rfl⟩
    | readTimeout =>
        exact ⟨[], StreamResponse.error (some "Stream read timeout after 30 seconds"),
          by simp [processReads], Or.inr (Or.inl ⟨_, rfl⟩)⟩
    | abortDuringRead =>
        exact ⟨[], StreamResponse.aborted, by simp [processReads], Or.inr (Or.inr rfl)⟩
    | chunk lines => simpa [processReads] using processLines_last rest ih lines

lemma consumeFrames_inr_iff (now : Nat) :
    ∀ (frames : List StreamResponse) (acc : TaskAccum),
      (∃ e, consumeFrames now frames acc = Sum.inr e)
        ↔ ∃ fr ∈ frames,
            (∃ m, fr = StreamResponse.error m) ∨ fr = StreamResponse.aborted := by
  intro frames
  induction frames with
  | nil => simp [consumeFrames]
  | cons fr frs ih =>
    intro acc
    cases fr with
    | claude_json d =>
        cases d with
        | none => simp [consumeFrames, ih]
        | some data => simp [consumeFrames, ih]
    | error m => simp [consumeFrames]
    | aborted => simp [consumeFrames]
    | done => simp [consumeFrames, ih]
    | other => simp [consumeFrames, ih]

/-- C9: the invoker generator never throws to its consumer — for every
fetch environment (non-2xx status, transport exception, per-read
timeout, malformed lines, abort) its frame list ends in a `done`,
`error` or `aborted` frame; fetch-level aborts and transport errors end
the generator with exactly that frame; and `executeTaskAsync` returns a
`TaskError` exactly when some yielded frame is `error` or `aborted`
(and a `TaskResult` otherwise). -/
theorem invoker_never_throws (agent : AgentRef) (f : FetchResult)
    (errorText : String) (now : Nat) :
    (∃ pre last, executeAgentHttpRequest agent f errorText = pre ++ [last]
        ∧ isTerminalFrame last)
    ∧ (executeAgentHttpRequest agent FetchResult.abortError errorText
        = [StreamResponse.aborted])
    ∧ (∀ msg, executeAgentHttpRequest agent (FetchResult.transportError msg) errorText
        = [StreamResponse.error (some msg)])
    ∧ ((∃ e, executeTaskAsync agent f errorText now = Sum.inr e)
        ↔ ∃ fr ∈ executeAgentHttpRequest agent f errorText,
            (∃ m, fr = StreamResponse.error m) ∨ fr = StreamResponse.aborted)
    ∧ ((∃ r, executeTaskAsync agent f errorText now = Sum.inl r)
        ∨ (∃ e, executeTaskAsync agent f errorText now = Sum.inr e)) := by
  refine ⟨?_, rfl, fun msg => rfl, ?_, ?_⟩
  · cases f with
    | abortError =>
        exact ⟨[], StreamResponse.aborted, rfl, Or.inr (Or.inr rfl)⟩
    | transportError msg =>
        exact ⟨[], StreamResponse.error (some msg), rfl, Or.inr (Or.inl ⟨_, rfl⟩)⟩
    | success status hasBody reads =>
        by_cases hok : statusOk status
        · by_cases hb : hasBody
          · simpa [executeAgentHttpRequest, hok, hb] using processReads_last reads
          · refine ⟨[], StreamResponse.error (some "No response body from agent endpoint"),
              ?_, Or.inr (Or.inl ⟨_, rfl⟩)⟩
            simp [executeAgentHttpRequest, hok, hb]
        · refine ⟨[], StreamResponse.error
            (some (httpErrorMessage agent.id status errorText)), ?_,
            Or.inr (Or.inl ⟨_, rfl⟩)⟩
          simp [executeAgentHttpRequest, hok]
  · exact consumeFrames_inr_iff now (executeAgentHttpRequest agent f errorText) _
  · cases h : executeTaskAsync agent f errorText now with
    | inl r => exact Or.inl ⟨r, rfl⟩
    | inr e => exact Or.inr ⟨e, rfl⟩

/-! ## Control API: POST /api/queue (`handleCreateQueue`) -/

structure TaskInput where
  agentId : String
  message : String
  priority : Option Int
  estimatedComplexity : Option TaskComplexity
deriving DecidableEq, Repr

/-- `CreateQueueRequest`; the optional `settings` object and its four
optional fields are flattened into four optional fields (an absent
`settings` is all four absent, matching the `body.settings?.x ?? d`
reads). -/
structure CreateQueueRequest where
  name : String
  description : Option String
  tasks : List TaskInput
  settingsMaxConcurrency : Option Nat
  settingsRetryCount : Option Nat
  settingsRetryDelay : Option Nat
  settingsTimeoutPerTask : Option Nat
deriving DecidableEq, Repr

def createInitialMetrics (taskCount : Nat) : TaskQueueMetrics :=
  { totalTasks := taskCount
    completedTasks := 0
    failedTasks := 0
    pendingTasks := taskCount
    inProgressTasks := 0 }

/-- `body.tasks.map((input, index) => ...)` with its running index. -/
def mapWithIndex (f : Nat → TaskInput → QueueTask) : Nat → List TaskInput → List QueueTask
  | _, [] => []
  | i, x :: xs => f i x :: mapWithIndex f (i + 1) xs

/-- One created task of `handleCreateQueue`: status `pending`, priority
`input.priority ?? index + 1` (nullish-coalescing, no validation),
`retryCount` 0, `maxRetries` from `settings?.retryCount ?? 3`. -/
def createTask (body : CreateQueueRequest) (queueId : String)
    (taskIdGen : Nat → String) (now : Nat) (index : Nat) (input : TaskInput) :
    QueueTask :=
  { id := taskIdGen index
    agentId := input.agentId
    message := input.message
    status := TaskStatus.pending
    priority := input.priority.getD ((index : Int) + 1)
    estimatedComplexity := input.estimatedComplexity
    retryCount := 0
    maxRetries := body.settingsRetryCount.getD 3
    createdAt := now
    startedAt := none
    completedAt := none
    result := none
    error := none
    metadata := some { parentQueueId := queueId, createdBy := CreatedBy.user,
                       requestId := none, sessionId := none } }

/-- `handleCreateQueue` (taskQueue handler): validate name and non-empty
task list (else respond 400, modelled as `none`), create tasks with
generated ids and defaults, merge settings with defaults, and return the
new `idle` queue. -/
def handleCreateQueue (body : CreateQueueRequest) (queueId : String)
    (taskIdGen : Nat → String) (now : Nat) : Option TaskQueue :=
  if body.name.isEmpty || body.tasks.isEmpty then
    none
  else
    let tasks := mapWithIndex (createTask body queueId taskIdGen now) 0 body.tasks
    let settings : TaskQueueSettings :=
      { maxConcurrency := body.settingsMaxConcurrency.getD 3
        retryCount := body.settingsRetryCount.getD 3
        retryDelay := body.settingsRetryDelay.getD 2000
        timeoutPerTask := body.settingsTimeoutPerTask.getD 300000 }
    some { id := queueId
           name := body.name
           description := body.description
           tasks := tasks
           settings := settings
           status := QueueStatus.idle
           createdAt := now
           startedAt := none
           completedAt := none
           metrics := createInitialMetrics tasks.length }

lemma mem_mapWithIndex (f : Nat → TaskInput → QueueTask) :
    ∀ (xs : List TaskInput) (i : Nat) (t : QueueTask),
      t ∈ mapWithIndex f i xs →
      ∃ j x, j < xs.length ∧ x ∈ xs ∧ t = f (i + j) x := by
  intro xs
  induction xs with
  | nil => intro i t h; simp [mapWithIndex] at h
  | cons x xs ih =>
    intro i t h
    rcases List.mem_cons.1 h with rfl | h
    · exact ⟨0, x, by simp, List.mem_cons_self x xs, by simp⟩
    · rcases ih (i + 1) t h with ⟨j, y, hj, hy, ht⟩
      exact ⟨j + 1, y, by simpa using Nat.succ_lt_succ hj,
        List.mem_cons_of_mem x hy, by rw [ht]; ring_nf⟩

/-- The proposition claim C8 makes: every task of a queue created by
POST /api/queue has priority in [1, 10]. -/
def createQueuePrioritiesInRange : Prop :=
  ∀ (body : CreateQueueRequest) (queueId : String) (taskIdGen : Nat → String)
    (now : Nat) (q : TaskQueue),
    handleCreateQueue body queueId taskIdGen now = some q →
    ∀ t ∈ q.tasks, 1 ≤ t.priority ∧ t.priority ≤ 10

/-- A create request supplying the out-of-range priority 0. -/
def requestWithPriorityZero : CreateQueueRequest :=
  { name := "n", description := none,
    tasks := [{ agentId := "a1", message := "m",
                priority := some 0, estimatedComplexity := none }],
    settingsMaxConcurrency := none, settingsRetryCount := none,
    settingsRetryDelay := none, settingsTimeoutPerTask := none }

/-- The task `handleCreateQueue` creates from `requestWithPriorityZero`. -/
def taskWithPriorityZero : QueueTask :=
  { id := "t1", agentId := "a1", message := "m", status := TaskStatus.pending,
    priority := 0, estimatedComplexity := none, retryCount := 0, maxRetries := 3,
    createdAt := 0, startedAt := none, completedAt := none, result := none,
    error := none,
    metadata := some { parentQueueId := "q1", createdBy := CreatedBy.user,
                       requestId := none, sessionId := none } }

/-- The queue `handleCreateQueue` creates from `requestWithPriorityZero`. -/
def queueWithPriorityZero : TaskQueue :=
  { id := "q1", name := "n", description := none,
    tasks := [taskWithPriorityZero],
    settings := { maxConcurrency := 3, retryCount := 3, retryDelay := 2000,
                  timeoutPerTask := 300000 },
    status := QueueStatus.idle, createdAt := 0, startedAt := none,
    completedAt := none, metrics := createInitialMetrics 1 }

/-- C8 counterexample: the handler performs no validation of a supplied
priority (`input.priority ?? index + 1`), so a client-supplied
priority 0 is stored verbatim, outside [1, 10]. -/
theorem createQueue_priority_counterexample : ¬ createQueuePrioritiesInRange := by
  intro h
  have heq : handleCreateQueue requestWithPriorityZero "q1" (fun _ => "t1") 0
      = some queueWithPriorityZero := by decide
  have hmem := h requestWithPriorityZero "q1" (fun _ => "t1") 0
    queueWithPriorityZero heq taskWithPriorityZero (by decide)
  have h1 : (1 : Int) ≤ 0 := by simpa [taskWithPriorityZero] using hmem.1
  omega

/-- C8 amended: every task of a created queue has priority in [1, 10]
provided each supplied priority is in [1, 10] and the queue has at most
10 tasks (the default for task `index` is `index + 1`, which exceeds 10
from the 11th defaulted task on). -/
theorem createQueue_priority_in_range (body : CreateQueueRequest) (queueId : String)
    (taskIdGen : Nat → String) (now : Nat) (q : TaskQueue)
    (hq : handleCreateQueue body queueId taskIdGen now = some q)
    (hsupplied : ∀ input ∈ body.tasks, ∀ p, input.priority = some p →
      1 ≤ p ∧ p ≤ 10)
    (hcount : body.tasks.length ≤ 10) :
    ∀ t ∈ q.tasks, 1 ≤ t.priority ∧ t.priority ≤ 10 := by
  intro t ht
  simp only [handleCreateQueue] at hq
  by_cases hvalid : body.name.isEmpty || body.tasks.isEmpty
  · rw [if_pos hvalid] at hq; cases hq
  · rw [if_neg hvalid] at hq
    have htasks : q.tasks
        = mapWithIndex (createTask body queueId taskIdGen now) 0 body.tasks := by
      cases hq; rfl
    rw [htasks] at ht
    rcases mem_mapWithIndex _ _ _ _ ht with ⟨j, input, hj, hmem, rfl⟩
    cases hp : input.priority with
    | none =>
        simp only [createTask, hp, Option.getD_none]
        have hj10 : (j : Int) < 10 := by exact_mod_cast lt_of_lt_of_le hj hcount
        constructor <;> omega
    | some p =>
        have hrange := hsupplied input hmem p hp
        simp only [createTask, hp, Option.getD_some]
        omega

/-- A valid create request: one task, priority left to the default. -/
def requestWithDefaultPriority : CreateQueueRequest :=
  { name := "n", description := none,
    tasks := [{ agentId := "a1", message := "m",
                priority := none, estimatedComplexity := none }],
    settingsMaxConcurrency := none, settingsRetryCount := none,
    settingsRetryDelay := none, settingsTimeoutPerTask := none }

/-- The queue created from `requestWithDefaultPriority`. -/
def queueWithDefaultPriority : TaskQueue :=
  { id := "q1", name := "n", description := none,
    tasks := [{ id := "t1", agentId := "a1", message := "m",
                status := TaskStatus.pending, priority := 1,
                estimatedComplexity := none, retryCount := 0, maxRetries := 3,
                createdAt := 0, startedAt := none, completedAt := none,
                result := none, error := none,
                metadata := some { parentQueueId := "q1",
                                   createdBy := CreatedBy.user,
                                   requestId := none, sessionId := none } }],
    settings := { maxConcurrency := 3, retryCount := 3, retryDelay := 2000,
                  timeoutPerTask := 300000 },
    status := QueueStatus.idle, createdAt := 0, startedAt := none,
    completedAt := none, metrics := createInitialMetrics 1 }

theorem createQueue_priority_in_range_witness :
    handleCreateQueue requestWithDefaultPriority "q1" (fun _ => "t1") 0
      = some queueWithDefaultPriority
    ∧ ∀ t ∈ queueWithDefaultPriority.tasks, 1 ≤ t.priority ∧ t.priority ≤ 10 :=
  ⟨by decide,
    createQueue_priority_in_range requestWithDefaultPriority "q1" (fun _ => "t1") 0
      queueWithDefaultPriority (by decide)
      (by
        intro input hm p hp
        have : input.priority = none := by
          simp only [requestWithDefaultPriority, List.mem_singleton] at hm
          rw [hm]
        rw [this] at hp
        cases hp)
      (by decide)⟩

/-! ## Redis queue store (`RedisQueueStore`) -/

/-- Association-list lookup for a Redis key space. -/
def assocGet {α : Type} (l : List (String × α)) (k : String) : Option α :=
  match l with
  | [] => none
  | (k0, v0) :: rest => if k0 = k then some v0 else assocGet rest k

/-- Association-list write (set key to value, in place if present). -/
def assocSet {α : Type} (l : List (String × α)) (k : String) (v : α) :
    List (String × α) :=
  match l with
  | [] => [(k, v)]
  | (k0, v0) :: rest =>
      if k0 = k then (k, v) :: rest else (k0, v0) :: assocSet rest k v

/-- Association-list delete (`DEL key`). -/
def assocDel {α : Type} (l : List (String × α)) (k : String) : List (String × α) :=
  l.filter (fun p => p.1 ≠ k)

/-- `RPUSH key v`: append to the (possibly missing) list at the key. -/
def rPush (l : List (String × List String)) (k v : String) :
    List (String × List String) :=
  assocSet l k ((assocGet l k).getD [] ++ [v])

/-- `LPUSH key v`: prepend to the (possibly missing) list at the key. -/
def lPush (l : List (String × List String)) (k v : String) :
    List (String × List String) :=
  assocSet l k (v :: (assocGet l k).getD [])

/-- The `queue:{id}` hash written by `saveQueue`. String scalars are kept
as their decoded values; optional timestamps keep the
empty-string-encodes-absent convention as `Option`; `settings` and
`metrics` stand for their JSON strings (stringify/parse is an exact
round-trip). `saveQueue` writes no `description` field. -/
structure StoredQueue where
  id : String
  name : String
  status : QueueStatus
  createdAt : Nat
  startedAt : Option Nat
  completedAt : Option Nat
  settings : TaskQueueSettings
  metrics : TaskQueueMetrics
deriving DecidableEq, Repr

/-- The `task:{id}` hash written by `saveTask`, same conventions. -/
structure StoredTask where
  id : String
  agentId : String
  message : String
  status : TaskStatus
  priority : Int
  retryCount : Nat
  maxRetries : Nat
  createdAt : Nat
  startedAt : Option Nat
  completedAt : Option Nat
  estimatedComplexity : Option TaskComplexity
  result : Option TaskResult
  error : Option TaskError
  metadata : Option TaskMetadata
deriving DecidableEq, Repr

/-- The whole key space of the store: queue hashes, per-queue task-id
lists, task hashes, per-queue pending lists, the `queues` sorted set
(member with `createdAt` score) and the `busy_agents` set. -/
structure RedisState where
  queues : List (String × StoredQueue)
  queueTasks : List (String × List String)
  tasks : List (String × StoredTask)
  pending : List (String × List String)
  queueList : List (String × Nat)
  busyAgents : List String
deriving DecidableEq, Repr

def emptyRedis : RedisState :=
  { queues := [], queueTasks := [], tasks := [], pending := [], queueList := [],
    busyAgents := [] }

/-- `x ? String(x) : ""` on an optional number: a present 0 is falsy in
JavaScript and is stored as the empty string, i.e. absent. -/
def encodeOptNat (o : Option Nat) : Option Nat :=
  match o with
  | some n => if n = 0 then none else some n
  | none => none

/-- `RedisQueueStore.saveTask`: serialize every field of the task into
the `task:{id}` hash (empty string for absent values). -/
def saveTask (t : QueueTask) : StoredTask :=
  { id := t.id
    agentId := t.agentId
    message := t.message
    status := t.status
    priority := t.priority
    retryCount := t.retryCount
    maxRetries := t.maxRetries
    createdAt := t.createdAt
    startedAt := encodeOptNat t.startedAt
    completedAt := encodeOptNat t.completedAt
    estimatedComplexity := t.estimatedComplexity
    result := t.result
    error := t.error
    metadata := t.metadata }

/-- `RedisQueueStore.loadTask`: absent key or empty stored id gives
`null`; otherwise decode the hash (numeric strings parse back; `""`
decodes to `undefined`). -/
def loadTask (st : RedisState) (taskId : String) : Option QueueTask :=
  match assocGet st.tasks taskId with
  | none => none
  | some td =>
      if td.id = "" then none
      else
        some { id := td.id
               agentId := td.agentId
               message := td.message
               status := td.status
               priority := td.priority
               estimatedComplexity := td.estimatedComplexity
               retryCount := td.retryCount
               maxRetries := td.maxRetries
               createdAt := td.createdAt
               startedAt := td.startedAt
               completedAt := td.completedAt
               result := td.result
               error := td.error
               metadata := td.metadata }

/-- The per-task loop body of `saveQueue`: save the task hash, append the
task id to `queue:tasks:{id}`, and append `pending`/`queued` tasks to
`queue:pending:{id}`. -/
def saveTasksLoop (queueId : String) : RedisState → List QueueTask → RedisState
  | st, [] => st
  | st, t :: ts =>
      let st1 := { st with tasks := assocSet st.tasks t.id (saveTask t) }
      let st2 := { st1 with queueTasks := rPush st1.queueTasks queueId t.id }
      let st3 :=
        if t.status = TaskStatus.pending ∨ t.status = TaskStatus.queued then
          { st2 with pending := rPush st2.pending queueId t.id }
        else st2
      saveTasksLoop queueId st3 ts

/-- `RedisQueueStore.saveQueue`: write the queue hash (no `description`
field), add the queue to the `queues` sorted set, then save all tasks. -/
def saveQueue (st : RedisState) (q : TaskQueue) : RedisState :=
  let qd : StoredQueue :=
    { id := q.id, name := q.name, status := q.status, createdAt := q.createdAt,
      startedAt := encodeOptNat q.startedAt,
      completedAt := encodeOptNat q.completedAt,
      settings := q.settings, metrics := q.metrics }
  let st1 := { st with queues := assocSet st.queues q.id qd }
  let st2 := { st1 with queueList := assocSet st1.queueList q.id q.createdAt }
  saveTasksLoop q.id st2 q.tasks

/-- `RedisQueueStore.loadQueue`: absent hash or empty stored id gives
`null`; otherwise rebuild the queue from the hash and the task-id list,
dropping unparseable tasks; the rebuilt queue has no `description`. -/
def loadQueue (st : RedisState) (queueId : String) : Option TaskQueue :=
  match assocGet st.queues queueId with
  | none => none
  | some qd =>
      if qd.id = "" then none
      else
        let taskIds := (assocGet st.queueTasks queueId).getD []
        let tasks := taskIds.filterMap (loadTask st)
        some { id := qd.id
               name := qd.name
               description := none
               tasks := tasks
               settings := qd.settings
               status := qd.status
               createdAt := qd.createdAt
               startedAt := qd.startedAt
               completedAt := qd.completedAt
               metrics := qd.metrics }

/-- `RedisQueueStore.updateQueueStatus`: set the status; also set
`startedAt` / `completedAt` when the status is `running` / `completed`
and a (truthy) timestamp was given. Modelled on existing hashes only —
every caller updates an existing queue. -/
def updateQueueStatus (st : RedisState) (queueId : String) (status : QueueStatus)
    (timestamp : Option Nat) : RedisState :=
  match assocGet st.queues queueId with
  | none => st
  | some qd =>
      let qd1 := { qd with status := status }
      let qd2 :=
        match status, timestamp with
        | QueueStatus.running, some ts =>
            if ts = 0 then qd1 else { qd1 with startedAt := some ts }
        | QueueStatus.completed, some ts =>
            if ts = 0 then qd1 else { qd1 with completedAt := some ts }
        | _, _ => qd1
      { st with queues := assocSet st.queues queueId qd2 }

/-- The argument object of `updateTask`, as a JavaScript partial object:
for each field, `none` means the key is absent, `some none` means the
key is present with value `undefined`, and `some (some v)` means a real
value. The code's `updates.x !== undefined` guard passes only in the
last case. -/
structure TaskUpdates where
  status : Option TaskStatus := none
  startedAt : Option (Option Nat) := none
  completedAt : Option (Option Nat) := none
  result : Option (Option TaskResult) := none
  error : Option (Option TaskError) := none
  retryCount : Option (Option Nat) := none
deriving DecidableEq, Repr

/-- `RedisQueueStore.updateTask`: merge the supplied subset into the task
hash. A field whose key is absent — or present but explicitly
`undefined` — fails the `!== undefined` guard and is not written; a
present numeric 0 timestamp is falsy and writes the empty string
(absent). Modelled on existing hashes only. -/
def updateTask (st : RedisState) (taskId : String) (updates : TaskUpdates) :
    RedisState :=
  match assocGet st.tasks taskId with
  | none => st
  | some td =>
      let td1 :=
        match updates.status with
        | some s => { td with status := s }
        | none => td
      let td2 :=
        match updates.startedAt with
        | some (some v) => { td1 with startedAt := if v = 0 then none else some v }
        | _ => td1
      let td3 :=
        match updates.completedAt with
        | some (some v) => { td2 with completedAt := if v = 0 then none else some v }
        | _ => td2
      let td4 :=
        match updates.result with
        | some (some r) => { td3 with result := some r }
        | _ => td3
      let td5 :=
        match updates.error with
        | some (some e) => { td4 with error := some e }
        | _ => td4
      let td6 :=
        match updates.retryCount with
        | some (some n) => { td5 with retryCount := n }
        | _ => td5
      { st with tasks := assocSet st.tasks taskId td6 }

/-- `RedisQueueStore.requeueTask`: `LPUSH` the task id onto the queue's
pending list. -/
def requeueTask (st : RedisState) (queueId taskId : String) : RedisState :=
  { st with pending := lPush st.pending queueId taskId }

/-- The per-task loop of `resetInterruptedQueue`: `in_progress` and
`retrying` tasks are set to `pending` (with an attempted — but
ineffective — `startedAt: undefined` clear) and appended to the rebuilt
pending list; `pending` and `queued` tasks are appended as well; all
other tasks are left alone. -/
def resetTasksLoop (queueId : String) : RedisState → List String → RedisState
  | st, [] => st
  | st, taskId :: rest =>
      let st1 :=
        match loadTask st taskId with
        | none => st
        | some task =>
            if task.status = TaskStatus.in_progress
                ∨ task.status = TaskStatus.retrying then
              let stA := updateTask st taskId
                { status := some TaskStatus.pending, startedAt := some none }
              { stA with pending := rPush stA.pending queueId taskId }
            else if task.status = TaskStatus.pending
                ∨ task.status = TaskStatus.queued then
              { st with pending := rPush st.pending queueId taskId }
            else st
      resetTasksLoop queueId st1 rest

/-- `RedisQueueStore.resetInterruptedQueue`: set the queue to `paused`,
delete and rebuild the pending list from all non-terminal tasks in
insertion order, and clear the `busy_agents` set. -/
def resetInterruptedQueue (st : RedisState) (queueId : String) : RedisState :=
  let st1 := updateQueueStatus st queueId QueueStatus.paused none
  let st2 := { st1 with pending := assocDel st1.pending queueId }
  let taskIds := (assocGet st2.queueTasks queueId).getD []
  let st3 := resetTasksLoop queueId st2 taskIds
  { st3 with busyAgents := [] }

/-- `handleRetryTask` (taskQueue handler), Redis path: load the queue,
find the task (404s modelled as `none`), reset the in-memory copy that
is returned to the client, call `updateTask` with explicitly-`undefined`
clears for result/error/timestamps, and requeue the task id. -/
def handleRetryTask (st : RedisState) (queueId taskId : String) :
    Option (QueueTask × RedisState) :=
  match loadQueue st queueId with
  | none => none
  | some queue =>
      match queue.tasks.find? (fun t => t.id == taskId) with
      | none => none
      | some task =>
          let returnedTask := { task with
            status := TaskStatus.pending
            retryCount := 0
            error := none
            result := none
            startedAt := none
            completedAt := none }
          let st1 := updateTask st taskId
            { status := some TaskStatus.pending
              retryCount := some (some 0)
              error := some none
              result := some none
              startedAt := some none
              completedAt := some none }
          let st2 := requeueTask st1 queueId taskId
          some (returnedTask, st2)

/-- A stored task interrupted mid-flight: `in_progress` with a recorded
`startedAt`. -/
def interruptedStoredTask : StoredTask :=
  { id := "t1", agentId := "a1", message := "m1", status := TaskStatus.in_progress,
    priority := 1, retryCount := 0, maxRetries := 3, createdAt := 1,
    startedAt := some 5, completedAt := none, estimatedComplexity := none,
    result := none, error := none, metadata := none }

/-- A still-pending stored task of the same queue. -/
def pendingStoredTask : StoredTask :=
  { id := "t2", agentId := "a2", message := "m2", status := TaskStatus.pending,
    priority := 2, retryCount := 0, maxRetries := 3, createdAt := 1,
    startedAt := none, completedAt := none, estimatedComplexity := none,
    result := none, error := none, metadata := none }

/-- A finished stored task of the same queue. -/
def completedStoredTask : StoredTask :=
  { id := "t3", agentId := "a3", message := "m3", status := TaskStatus.completed,
    priority := 3, retryCount := 0, maxRetries := 3, createdAt := 1,
    startedAt := some 2, completedAt := some 4, estimatedComplexity := none,
    result := none, error := none, metadata := none }

/-- The `queue:q` hash of the interrupted-queue scenario. -/
def interruptedStoredQueue : StoredQueue :=
  { id := "q", name := "n", status := QueueStatus.running,
    createdAt := 1, startedAt := some 2, completedAt := none,
    settings := { maxConcurrency := 3, retryCount := 3, retryDelay := 2000,
                  timeoutPerTask := 300000 },
    metrics := createInitialMetrics 3 }

/-- A store holding one `running` queue with tasks t1 (`in_progress`,
`startedAt = 5`), t2 (`pending`) and t3 (`completed`), and a busy agent. -/
def interruptedStore : RedisState :=
  { queues := [("q", interruptedStoredQueue)],
    queueTasks := [("q", ["t1", "t2", "t3"])],
    tasks := [("t1", interruptedStoredTask), ("t2", pendingStoredTask),
              ("t3", completedStoredTask)],
    pending := [("q", ["t2"])],
    queueList := [("q", 1)],
    busyAgents := ["a1"] }

/-- C4: at `interruptedStore`, `resetInterruptedQueue` pauses the queue,
resets t1 to `pending`, rebuilds the pending list as [t1, t2] in
insertion order and clears the busy-agents set — but t1's `startedAt`
is **not** cleared: the `startedAt: undefined` update fails the
`!== undefined` guard in `updateTask` and the stored value 5 survives. -/
theorem resetInterruptedQueue_divergence :
    ((assocGet (resetInterruptedQueue interruptedStore "q").queues "q").map
        (fun qd => qd.status) = some QueueStatus.paused)
    ∧ ((assocGet (resetInterruptedQueue interruptedStore "q").tasks "t1").map
        (fun td => td.status) = some TaskStatus.pending)
    ∧ (assocGet (resetInterruptedQueue interruptedStore "q").pending "q"
        = some ["t1", "t2"])
    ∧ ((resetInterruptedQueue interruptedStore "q").busyAgents = [])
    ∧ ((assocGet (resetInterruptedQueue interruptedStore "q").tasks "t1").map
        (fun td => td.startedAt) = some (some 5)) := by
  decide

/-- A stored failed task with recorded result, error and timestamps. -/
def failedStoredTask : StoredTask :=
  { id := "t", agentId := "a1", message := "m", status := TaskStatus.failed,
    priority := 1, retryCount := 2, maxRetries := 3, createdAt := 1,
    startedAt := some 5, completedAt := some 9, estimatedComplexity := none,
    result := some { type := TaskResultType.success, content := "old",
                     sessionId := none, completedAt := 9 },
    error := some { type := TaskErrorType.execution, message := "boom",
                    retryable := false, occurredAt := 9 },
    metadata := none }

/-- The `queue:q` hash of the failed-task scenario. -/
def failedStoredQueue : StoredQueue :=
  { id := "q", name := "n", status := QueueStatus.failed,
    createdAt := 1, startedAt := some 2, completedAt := some 9,
    settings := { maxConcurrency := 3, retryCount := 3, retryDelay := 2000,
                  timeoutPerTask := 300000 },
    metrics := { totalTasks := 1, completedTasks := 0, failedTasks := 1,
                 pendingTasks := 0, inProgressTasks := 0 } }

/-- A store holding one failed queue with the single task `t`. -/
def failedTaskStore : RedisState :=
  { queues := [("q", failedStoredQueue)],
    queueTasks := [("q", ["t"])],
    tasks := [("t", failedStoredTask)],
    pending := [("q", [])],
    queueList := [("q", 1)],
    busyAgents := [] }

/-- C6: at `failedTaskStore`, the retry endpoint resets the **returned**
task completely and requeues it, and writes `status = pending`,
`retryCount = 0` to the store — but the stored `result`, `error`,
`startedAt` and `completedAt` keep their old values: the explicit
`undefined` clears fail the `!== undefined` guards in `updateTask`. -/
theorem handleRetryTask_divergence :
    ((handleRetryTask failedTaskStore "q" "t").map (fun p => p.1.status)
        = some TaskStatus.pending)
    ∧ ((handleRetryTask failedTaskStore "q" "t").map (fun p => p.1.retryCount)
        = some 0)
    ∧ ((handleRetryTask failedTaskStore "q" "t").map (fun p => p.1.result)
        = some none)
    ∧ ((handleRetryTask failedTaskStore "q" "t").map (fun p => p.1.error)
        = some none)
    ∧ ((handleRetryTask failedTaskStore "q" "t").map (fun p => p.1.startedAt)
        = some none)
    ∧ ((handleRetryTask failedTaskStore "q" "t").map (fun p => p.1.completedAt)
        = some none)
    ∧ ((handleRetryTask failedTaskStore "q" "t").map (fun p =>
        (assocGet p.2.tasks "t").map (fun td => td.status))
        = some (some TaskStatus.pending))
    ∧ ((handleRetryTask failedTaskStore "q" "t").map (fun p =>
        (assocGet p.2.tasks "t").map (fun td => td.retryCount)) = some (some 0))
    ∧ ((handleRetryTask failedTaskStore "q" "t").map (fun p =>
        assocGet p.2.pending "q") = some (some ["t"]))
    ∧ ((handleRetryTask failedTaskStore "q" "t").map (fun p =>
        (assocGet p.2.tasks "t").map (fun td => td.startedAt))
        = some (some (some 5)))
    ∧ ((handleRetryTask failedTaskStore "q" "t").map (fun p =>
        (assocGet p.2.tasks "t").map (fun td => td.completedAt))
        = some (some (some 9)))
    ∧ ((handleRetryTask failedTaskStore "q" "t").map (fun p =>
        (assocGet p.2.tasks "t").map (fun td => td.result))
        = some (some failedStoredTask.result))
    ∧ ((handleRetryTask failedTaskStore "q" "t").map (fun p =>
        (assocGet p.2.tasks "t").map (fun td => td.error))
        = some (some failedStoredTask.error)) := by
  decide

/-- The round-trip proposition claim C5 states: saving any queue into an
empty store and loading it back returns the queue unchanged. -/
def saveLoadRoundtrip : Prop :=
  ∀ q : TaskQueue, loadQueue (saveQueue emptyRedis q) q.id = some q

/-- A queue with a description, for the C5 counterexample. -/
def describedQueue : TaskQueue :=
  { id := "q1", name := "n", description := some "d",
    tasks := [{ id := "t1", agentId := "a1", message := "m",
                status := TaskStatus.pending, priority := 1,
                estimatedComplexity := none, retryCount := 0, maxRetries := 3,
                createdAt := 1, startedAt := none, completedAt := none,
                result := none, error := none, metadata := none }],
    settings := { maxConcurrency := 3, retryCount := 3, retryDelay := 2000,
                  timeoutPerTask := 300000 },
    status := QueueStatus.idle, createdAt := 1, startedAt := none,
    completedAt := none, metrics := createInitialMetrics 1 }

/-- C5 counterexample: `saveQueue` writes no `description` field, so the
round-trip of a queue with `description = "d"` returns a queue with no
description — not a queue equal to the original. -/
theorem saveLoad_description_counterexample : ¬ saveLoadRoundtrip := by
  intro h
  have hval := h describedQueue
  have hne : loadQueue (saveQueue emptyRedis describedQueue) describedQueue.id
      ≠ some describedQueue := by decide
  exact hne hval

lemma assocGet_assocSet_self {α : Type} (l : List (String × α)) (k : String) (v : α) :
    assocGet (assocSet l k v) k = some v := by
  induction l with
  | nil => simp [assocSet, assocGet]
  | cons p rest ih =>
    by_cases hk : p.1 = k
    · simp [assocSet, assocGet, hk]
    · simp [assocSet, assocGet, hk, ih]

lemma assocGet_assocSet_ne {α : Type} (l : List (String × α)) (k k2 : String) (v : α)
    (h : k ≠ k2) : assocGet (assocSet l k v) k2 = assocGet l k2 := by
  induction l with
  | nil => simp [assocSet, assocGet, h]
  | cons p rest ih =>
    by_cases hk : p.1 = k
    · simp [assocSet, assocGet, hk, h]
    · simp only [assocSet, if_neg hk]
      by_cases hk2 : p.1 = k2
      · simp [assocGet, hk2]
      · simp [assocGet, hk2, ih]

lemma assocGet_rPush_self (l : List (String × List String)) (k v : String) :
    assocGet (rPush l k v) k = some ((assocGet l k).getD [] ++ [v]) := by
  simp [rPush, assocGet_assocSet_self]

lemma assocGet_rPush_ne (l : List (String × List String)) (k k2 v : String)
    (h : k ≠ k2) : assocGet (rPush l k v) k2 = assocGet l k2 := by
  simp [rPush, assocGet_assocSet_ne _ _ _ _ h]

lemma saveTasksLoop_queues (qid : String) (ts : List QueueTask) :
    ∀ st : RedisState, (saveTasksLoop qid st ts).queues = st.queues := by
  induction ts with
  | nil => intro st; rfl
  | cons t ts ih =>
    intro st
    simp only [saveTasksLoop]
    split <;> rw [ih]

lemma saveTasksLoop_queueTasks (qid : String) (ts : List QueueTask) :
    ∀ st : RedisState,
      ((assocGet (saveTasksLoop qid st ts).queueTasks qid).getD [])
        = ((assocGet st.queueTasks qid).getD []) ++ ts.map (fun t => t.id) := by
  induction ts with
  | nil => intro st; simp [saveTasksLoop]
  | cons t ts ih =>
    intro st
    simp only [saveTasksLoop]
    split
    · rw [ih]
      simp [assocGet_rPush_self]
    · rw [ih]
      simp [assocGet_rPush_self]

lemma saveTasksLoop_tasks_not_mem (qid : String) (ts : List QueueTask) :
    ∀ (st : RedisState) (tid : String), tid ∉ ts.map (fun t => t.id) →
      assocGet (saveTasksLoop qid st ts).tasks tid = assocGet st.tasks tid := by
  induction ts with
  | nil => intro st tid _; rfl
  | cons t ts ih =>
    intro st tid hmem
    simp only [List.map_cons, List.mem_cons, not_or] at hmem
    simp only [saveTasksLoop]
    split
    · rw [ih _ _ hmem.2]
      simp [assocGet_assocSet_ne _ _ _ _ (fun h => hmem.1 h.symm)]
    · rw [ih _ _ hmem.2]
      simp [assocGet_assocSet_ne _ _ _ _ (fun h => hmem.1 h.symm)]

lemma saveTasksLoop_tasks_mem (qid : String) (ts : List QueueTask) :
    ∀ (st : RedisState) (t : QueueTask), t ∈ ts →
      (ts.map (fun t => t.id)).Nodup →
      assocGet (saveTasksLoop qid st ts).tasks t.id = some (saveTask t) := by
  induction ts with
  | nil => intro st t h; cases h
  | cons u ts ih =>
    intro st t hmem hnodup
    simp only [List.map_cons, List.nodup_cons] at hnodup
    rcases List.mem_cons.1 hmem with rfl | hmem
    · simp only [saveTasksLoop]
      split
      · rw [saveTasksLoop_tasks_not_mem qid ts _ _ hnodup.1]
        simp [assocGet_assocSet_self]
      · rw [saveTasksLoop_tasks_not_mem qid ts _ _ hnodup.1]
        simp [assocGet_assocSet_self]
    · simp only [saveTasksLoop]
      split <;> exact ih _ t hmem hnodup.2

lemma encodeOptNat_eq_self {o : Option Nat} (h : o ≠ some 0) : encodeOptNat o = o := by
  cases o with
  | none => rfl
  | some n =>
    cases n with
    | zero => exact absurd rfl h
    | succ m => simp [encodeOptNat]

lemma loadTask_saveTask (st : RedisState) (t : QueueTask)
    (hlookup : assocGet st.tasks t.id = some (saveTask t))
    (hid : t.id ≠ "") (hs : t.startedAt ≠ some 0) (hc : t.completedAt ≠ some 0) :
    loadTask st t.id = some t := by
  simp [loadTask, hlookup, saveTask, hid, encodeOptNat_eq_self hs,
    encodeOptNat_eq_self hc]

lemma filterMap_loadTask (st : RedisState) (ts : List QueueTask)
    (h : ∀ t ∈ ts, loadTask st t.id = some t) :
    (ts.map (fun t => t.id)).filterMap (loadTask st) = ts := by
  induction ts with
  | nil => simp
  | cons t ts ih =>
    simp only [List.map_cons, List.filterMap_cons, h t (List.mem_cons_self t ts)]
    rw [ih (fun u hu => h u (List.mem_cons_of_mem t hu))]

/-- C5 amended: saving a queue into an empty store and loading it back
returns the queue with every field intact — id, name, status, settings,
metrics, timestamps, and all tasks in original insertion order — except
`description`, which `saveQueue` does not persist and which comes back
absent. Hypotheses exclude the JavaScript-falsy edge values the string
encoding cannot represent (empty ids, timestamp 0) and require distinct
task ids. `loadQueue` of any id on the empty store returns `null`. -/
theorem saveLoad_roundtrip_up_to_description (q : TaskQueue)
    (hid : q.id ≠ "")
    (hqs : q.startedAt ≠ some 0) (hqc : q.completedAt ≠ some 0)
    (htid : ∀ t ∈ q.tasks, t.id ≠ "")
    (hts : ∀ t ∈ q.tasks, t.startedAt ≠ some 0 ∧ t.completedAt ≠ some 0)
    (hnodup : (q.tasks.map (fun t => t.id)).Nodup) :
    loadQueue (saveQueue emptyRedis q) q.id = some { q with description := none }
    ∧ ∀ anyId, loadQueue emptyRedis anyId = none := by
  constructor
  · have hqueues : (saveQueue emptyRedis q).queues
        = [(q.id, { id := q.id, name := q.name, status := q.status,
                    createdAt := q.createdAt,
                    startedAt := encodeOptNat q.startedAt,
                    completedAt := encodeOptNat q.completedAt,
                    settings := q.settings, metrics := q.metrics })] := by
      simp only [saveQueue]
      rw [saveTasksLoop_queues]
      simp [emptyRedis, assocSet]
    have htaskIds : ((assocGet (saveQueue emptyRedis q).queueTasks q.id).getD [])
        = q.tasks.map (fun t => t.id) := by
      simp only [saveQueue]
      rw [saveTasksLoop_queueTasks]
      simp [emptyRedis, assocGet]
    have htasks : ∀ t ∈ q.tasks,
        loadTask (saveQueue emptyRedis q) t.id = some t := by
      intro t ht
      refine loadTask_saveTask _ t ?_ (htid t ht) (hts t ht).1 (hts t ht).2
      simp only [saveQueue]
      exact saveTasksLoop_tasks_mem q.id q.tasks _ t ht hnodup
    have hget : assocGet (saveQueue emptyRedis q).queues q.id
        = some { id := q.id, name := q.name, status := q.status,
                 createdAt := q.createdAt,
                 startedAt := encodeOptNat q.startedAt,
                 completedAt := encodeOptNat q.completedAt,
                 settings := q.settings, metrics := q.metrics } := by
      rw [hqueues]
      simp [assocGet]
    simp only [loadQueue, hget]
    rw [if_neg hid, htaskIds, filterMap_loadTask _ _ htasks,
      encodeOptNat_eq_self hqs, encodeOptNat_eq_self hqc]
  · intro anyId
    rfl

theorem saveLoad_roundtrip_witness :
    loadQueue (saveQueue emptyRedis describedQueue) describedQueue.id
      = some { describedQueue with description := none }
    ∧ ∀ anyId, loadQueue emptyRedis anyId = none :=
  saveLoad_roundtrip_up_to_description describedQueue (by decide) (by decide)
    (by decide)
    (by intro t ht; simp [describedQueue, List.mem_singleton] at ht; rw [ht]; decide)
    (by intro t ht; simp [describedQueue, List.mem_singleton] at ht; rw [ht]; constructor <;> decide)
    (by decide)

/-! ## Scheduler loop (`TaskScheduler.executeQueue`)

The cooperative loop is embedded as a step function driven by one
`StepInput` per iteration. External asynchronous effects — `stop()`
signals, retry timers firing (the `setTimeout` that resets a `retrying`
task to `pending`), and background dispatches finishing (each resolved
`executeTaskAsync` removes its task from `runningTasks` and writes its
outcome into `completedResults`) — are applied at the top of the
iteration, standing for the callbacks that ran during the preceding
sleep. A pause/resume cycle is delivered as one gate input, matching
the code's blocking pause gate. Store writes and event publication to
Redis carry no scheduler-visible state and are not modelled. -/

/-- The value a finished background dispatch writes into
`completedResults`: the drain loop branches on `"content" in result`. -/
inductive TaskOutcome
  | result (r : TaskResult)
  | error (e : TaskError)
deriving DecidableEq, Repr

/-- The events `executeQueue` yields (queue id omitted — one queue per
run). -/
inductive SchedEvent
  | queue_started
  | queue_paused
  | queue_resumed
  | task_started (taskId : String) (agentId : String)
  | task_completed (taskId : String) (result : TaskResult)
  | task_retrying (taskId : String) (attempt : Nat) (maxRetries : Nat)
  | task_failed (taskId : String) (error : TaskError)
  | queue_completed
  | queue_failed (error : String)
deriving DecidableEq, Repr

structure SchedState where
  tasks : List QueueTask
  running : List String
  completedResults : List (String × TaskOutcome)
  retryTimers : List String
  isStopped : Bool
deriving DecidableEq, Repr

/-- The asynchronous callbacks delivered before one loop iteration. -/
structure StepInput where
  stop : Bool
  pause : Bool
  stopDuringPause : Bool
  timerFires : List String
  arrivals : List (String × TaskOutcome)
deriving DecidableEq, Repr

def keysOf (l : List (String × TaskOutcome)) : List String :=
  l.map (fun p => p.1)

/-- In-place mutation of the task object with the given id. -/
def updTask (tasks : List QueueTask) (tid : String) (f : QueueTask → QueueTask) :
    List QueueTask :=
  tasks.map (fun t => if t.id = tid then f t else t)

/-- `TaskScheduler.hasWorkRemaining`. -/
def hasWorkRemaining (tasks : List QueueTask) : Bool :=
  tasks.any (fun t =>
    t.status == TaskStatus.pending || t.status == TaskStatus.queued ||
    t.status == TaskStatus.in_progress || t.status == TaskStatus.retrying)

/-- `stop()`: set the stop flag and abort and clear all running tasks. -/
def applyStop (st : SchedState) : SchedState :=
  { st with isStopped := true, running := [] }

/-- The retry-timer callback on the task object: back to `pending`. -/
def markPending (u : QueueTask) : QueueTask :=
  { u with status := TaskStatus.pending }

/-- One retry timer firing: the `setTimeout` callback resets the task to
`pending` (and, on the Redis path, requeues it). -/
def applyTimer (st : SchedState) (tid : String) : SchedState :=
  if tid ∈ st.retryTimers then
    { st with retryTimers := st.retryTimers.erase tid,
              tasks := updTask st.tasks tid markPending }
  else st

/-- One background dispatch finishing: its `.then` handler removes the
task from `runningTasks` and records the outcome in `completedResults`.
After `stop()` the task is no longer in `runningTasks` and the write is
unobservable (nothing drains it), so it is dropped. -/
def applyArrival (st : SchedState) (p : String × TaskOutcome) : SchedState :=
  if p.1 ∈ st.running then
    { st with running := st.running.erase p.1,
              completedResults := st.completedResults ++ [p] }
  else st

def applyExternal (inp : StepInput) (st : SchedState) : SchedState :=
  let st1 := if inp.stop then applyStop st else st
  let st2 := inp.timerFires.foldl applyTimer st1
  inp.arrivals.foldl applyArrival st2

/-- The `TaskError` synthesized for an unresolvable agent. -/
def agentNotFoundError (agentId : String) (now : Nat) : TaskError :=
  { type := TaskErrorType.execution
    message := "Agent " ++ agentId ++ " not found"
    retryable := false
    occurredAt := now }

/-- `startTask` on the task object: `in_progress`, `startedAt = now`,
`maxRetries` overwritten from the queue settings. -/
def markStarted (cfg : TaskQueueSettings) (now : Nat) (u : QueueTask) : QueueTask :=
  { u with status := TaskStatus.in_progress, startedAt := some now,
           maxRetries := cfg.retryCount }

/-- The agent-not-found branch on the task object. -/
def markAgentMissing (now : Nat) (agentId : String) (u : QueueTask) : QueueTask :=
  { u with status := TaskStatus.failed,
           error := some (agentNotFoundError agentId now) }

/-- The drain success branch on the task object. -/
def markCompleted (now : Nat) (r : TaskResult) (u : QueueTask) : QueueTask :=
  { u with status := TaskStatus.completed, result := some r,
           completedAt := some now }

/-- The drain retry branch on the task object. -/
def markRetrying (u : QueueTask) : QueueTask :=
  { u with status := TaskStatus.retrying, retryCount := u.retryCount + 1 }

/-- The drain permanent-failure branch on the task object. -/
def markFailed (now : Nat) (err : TaskError) (u : QueueTask) : QueueTask :=
  { u with status := TaskStatus.failed, error := some err,
           completedAt := some now }

/-- Dispatching one ready task (`executeQueue` step 3 / `startTask`):
an unresolvable agent fails the task immediately (no `task_started`);
otherwise the task is started, recorded in `runningTasks`, and
`task_started` is emitted. -/
def dispatchTask (cfg : TaskQueueSettings) (getAgent : String → Option AgentRef)
    (now : Nat) (st : SchedState) (t : QueueTask) : SchedState × List SchedEvent :=
  match getAgent t.agentId with
  | none =>
      ({ st with tasks := updTask st.tasks t.id (markAgentMissing now t.agentId) },
       [SchedEvent.task_failed t.id (agentNotFoundError t.agentId now)])
  | some _ =>
      ({ st with tasks := updTask st.tasks t.id (markStarted cfg now),
                 running := st.running ++ [t.id] },
       [SchedEvent.task_started t.id t.agentId])

def dispatchAll (cfg : TaskQueueSettings) (getAgent : String → Option AgentRef)
    (now : Nat) : SchedState → List QueueTask → SchedState × List SchedEvent
  | st, [] => (st, [])
  | st, t :: ts =>
      let p1 := dispatchTask cfg getAgent now st t
      let p2 := dispatchAll cfg getAgent now p1.1 ts
      (p2.1, p1.2 ++ p2.2)

/-- Remove one `completedResults` entry (`completedResults.delete`). -/
def removeKey (l : List (String × TaskOutcome)) (tid : String) :
    List (String × TaskOutcome) :=
  l.filter (fun p => p.1 ≠ tid)

/-- Draining one snapshot entry of `completedResults` (`executeQueue`
step 4): a missing task is skipped (its entry is left in the map); a
success marks the task `completed`; a retryable error under the retry
budget increments `retryCount`, marks the task `retrying`, emits
`task_retrying` and schedules the reset-to-pending timer; anything else
marks the task `failed`. Processed entries are deleted. -/
def drainEntry (now : Nat) (st : SchedState) (e : String × TaskOutcome) :
    SchedState × List SchedEvent :=
  match st.tasks.find? (fun t => t.id == e.1) with
  | none => (st, [])
  | some task =>
      match e.2 with
      | TaskOutcome.result r =>
          ({ st with tasks := updTask st.tasks e.1 (markCompleted now r),
                     completedResults := removeKey st.completedResults e.1 },
           [SchedEvent.task_completed e.1 r])
      | TaskOutcome.error err =>
          if err.retryable ∧ task.retryCount < task.maxRetries then
            ({ st with tasks := updTask st.tasks e.1 markRetrying,
                       completedResults := removeKey st.completedResults e.1,
                       retryTimers := st.retryTimers ++ [e.1] },
             [SchedEvent.task_retrying e.1 (task.retryCount + 1) task.maxRetries])
          else
            ({ st with tasks := updTask st.tasks e.1 (markFailed now err),
                       completedResults := removeKey st.completedResults e.1 },
             [SchedEvent.task_failed e.1 err])

def drainAll (now : Nat) : SchedState → List (String × TaskOutcome) →
    SchedState × List SchedEvent
  | st, [] => (st, [])
  | st, e :: es =>
      let p1 := drainEntry now st e
      let p2 := drainAll now p1.1 es
      (p2.1, p1.2 ++ p2.2)

/-- The main `while` loop of `executeQueue`, one `StepInput` per
iteration: apply the asynchronous callbacks, check the loop condition,
run the pause gate, compute the ready set, dispatch, and drain the
`completedResults` snapshot — with no ready task the code `continue`s
(skipping the drain) while tasks are running, and otherwise `break`s.
Returns the final state, the yielded events, and whether the loop
exited (by its condition or a `break`) as opposed to running out of
scheduled inputs. -/
def schedLoop (cfg : TaskQueueSettings) (getAgent : String → Option AgentRef)
    (now : Nat) : List StepInput → SchedState → SchedState × List SchedEvent × Bool
  | [], st => (st, [], false)
  | inp :: rest, st =>
      let st0 := applyExternal inp st
      if hasWorkRemaining st0.tasks && !st0.isStopped then
        if inp.pause && inp.stopDuringPause then
          (applyStop st0, [SchedEvent.queue_paused], true)
        else
          let gate := if inp.pause
            then [SchedEvent.queue_paused, SchedEvent.queue_resumed] else []
          let ready := readyFromTasks st0.running.length st0.tasks cfg.maxConcurrency
          if ready.isEmpty then
            if st0.running.length > 0 then
              let p := schedLoop cfg getAgent now rest st0
              (p.1, gate ++ p.2.1, p.2.2)
            else
              (st0, gate, true)
          else
            let d1 := dispatchAll cfg getAgent now st0 ready
            let d2 := drainAll now d1.1 d1.1.completedResults
            let p := schedLoop cfg getAgent now rest d2.1
            (p.1, gate ++ d1.2 ++ d2.2 ++ p.2.1, p.2.2)
      else
        (st0, [], true)

/-- The result of one modelled `executeQueue` run. -/
structure SchedRun where
  state : SchedState
  events : List SchedEvent
  finished : Bool
deriving DecidableEq, Repr

/-- `TaskScheduler.executeQueue`: reset the scheduler bookkeeping, yield
`queue_started`, run the main loop, and — when the loop exited — recompute
metrics from the task statuses and yield the terminal queue event
(`queue_failed` on stop or failed tasks, `queue_completed` otherwise).
On loop exit the running set is empty or the stop flag is set, so the
post-loop drain of still-running invocations is a no-op and contributes
no events. A run whose input schedule is exhausted mid-loop is returned
unfinished, without terminal queue event. -/
def initSchedState (queue : TaskQueue) : SchedState :=
  { tasks := queue.tasks, running := [], completedResults := [],
    retryTimers := [], isStopped := false }

def executeQueueModel (queue : TaskQueue) (getAgent : String → Option AgentRef)
    (inputs : List StepInput) (now : Nat) : SchedRun :=
  let p := schedLoop queue.settings getAgent now inputs (initSchedState queue)
  if p.2.2 then
    let metrics := calculateMetrics { queue with tasks := p.1.tasks }
    if p.1.isStopped then
      { state := p.1,
        events := SchedEvent.queue_started :: p.2.1
          ++ [SchedEvent.queue_failed "Queue was stopped"],
        finished := true }
    else if 0 < metrics.failedTasks then
      { state := p.1,
        events := SchedEvent.queue_started :: p.2.1
          ++ [SchedEvent.queue_failed (toString metrics.failedTasks ++ " task(s) failed")],
        finished := true }
    else
      { state := p.1,
        events := SchedEvent.queue_started :: p.2.1 ++ [SchedEvent.queue_completed],
        finished := true }
  else
    { state := p.1, events := SchedEvent.queue_started :: p.2.1, finished := false }

/-- Does the event belong to the given task? -/
def isTaskEvent (tid : String) : SchedEvent → Bool
  | SchedEvent.task_started t _ => t == tid
  | SchedEvent.task_completed t _ => t == tid
  | SchedEvent.task_retrying t _ _ => t == tid
  | SchedEvent.task_failed t _ => t == tid
  | _ => false

/-- The emitted event sequence restricted to one task. -/
def eventsOf (tid : String) (evs : List SchedEvent) : List SchedEvent :=
  evs.filter (isTaskEvent tid)

/-- Is the event a terminal event (`task_completed` / `task_failed`) of
the given task? -/
def isTerminalEvent (tid : String) : SchedEvent → Bool
  | SchedEvent.task_completed t _ => t == tid
  | SchedEvent.task_failed t _ => t == tid
  | _ => false

/-- Number of terminal events of the task in the sequence. -/
def terminalCount (tid : String) (evs : List SchedEvent) : Nat :=
  (evs.filter (isTerminalEvent tid)).length

/-- Alternating per-task prefixes: `AltShape tid false r` is a complete
alternation `(task_started · task_retrying)^k`; `AltShape tid true r`
additionally ends in a dangling `task_started`. -/
inductive AltShape (tid : String) : Bool → List SchedEvent → Prop
  | nil : AltShape tid false []
  | start (l : List SchedEvent) (aid : String) :
      AltShape tid false l → AltShape tid true (l ++ [SchedEvent.task_started tid aid])
  | retry (l : List SchedEvent) (a m : Nat) :
      AltShape tid true l → AltShape tid false (l ++ [SchedEvent.task_retrying tid a m])

/-- The per-task event-restriction shape implied by the task's current
status. -/
def shapeByStatus (getAgent : String → Option AgentRef) (t : QueueTask)
    (r : List SchedEvent) : Prop :=
  match t.status with
  | TaskStatus.pending => AltShape t.id false r
  | TaskStatus.queued => AltShape t.id false r
  | TaskStatus.retrying => AltShape t.id false r
  | TaskStatus.in_progress => AltShape t.id true r
  | TaskStatus.completed => ∃ l res, AltShape t.id true l
      ∧ r = l ++ [SchedEvent.task_completed t.id res]
  | TaskStatus.failed => (∃ l err, AltShape t.id true l
      ∧ r = l ++ [SchedEvent.task_failed t.id err])
      ∨ (∃ err, r = [SchedEvent.task_failed t.id err] ∧ getAgent t.agentId = none)
  | TaskStatus.cancelled => r = []

/-- Full per-task trace shape: the status shape, plus the fact that a
task whose agent is unresolvable never gets past its synthesized
failure. -/
def TraceShape (getAgent : String → Option AgentRef) (t : QueueTask)
    (r : List SchedEvent) : Prop :=
  shapeByStatus getAgent t r
  ∧ (getAgent t.agentId = none →
      r = [] ∨ ∃ err, r = [SchedEvent.task_failed t.id err])

/-- Scheduler-state machinery invariant. -/
structure Mach (cfg : TaskQueueSettings) (st : SchedState) : Prop where
  ids_nodup : (st.tasks.map (fun t => t.id)).Nodup
  running_nodup : st.running.Nodup
  keys_nodup : (keysOf st.completedResults).Nodup
  timers_nodup : st.retryTimers.Nodup
  run_status : ∀ t ∈ st.tasks, t.id ∈ st.running → t.status = TaskStatus.in_progress
  key_status : ∀ t ∈ st.tasks, t.id ∈ keysOf st.completedResults →
    t.status = TaskStatus.in_progress
  timer_status : ∀ t ∈ st.tasks, t.id ∈ st.retryTimers → t.status = TaskStatus.retrying
  run_key_disjoint : ∀ tid ∈ st.running, tid ∉ keysOf st.completedResults
  rc_le : ∀ t ∈ st.tasks, t.retryCount ≤ t.maxRetries
  rc_pos_mr : ∀ t ∈ st.tasks, 0 < t.retryCount → t.maxRetries = cfg.retryCount
  dispatched_mr : ∀ t ∈ st.tasks,
    (t.id ∈ st.running ∨ t.id ∈ keysOf st.completedResults) →
    t.maxRetries = cfg.retryCount

/-- Combined scheduler invariant over the state and the events yielded
so far. -/
def SchedInv (cfg : TaskQueueSettings) (getAgent : String → Option AgentRef)
    (st : SchedState) (evs : List SchedEvent) : Prop :=
  Mach cfg st ∧ ∀ t ∈ st.tasks, TraceShape getAgent t (eventsOf t.id evs)

lemma eventsOf_append (tid : String) (a b : List SchedEvent) :
    eventsOf tid (a ++ b) = eventsOf tid a ++ eventsOf tid b := by
  simp [eventsOf, List.filter_append]

lemma altShape_terminalCount {tid : String} {b : Bool} {l : List SchedEvent}
    (h : AltShape tid b l) : terminalCount tid l = 0 := by
  induction h with
  | nil => rfl
  | start l aid _ ih =>
      simp [terminalCount, List.filter_append, isTerminalEvent] at ih ⊢
      simpa [terminalCount] using ih
  | retry l a m _ ih =>
      simp [terminalCount, List.filter_append, isTerminalEvent] at ih ⊢
      simpa [terminalCount] using ih

lemma updTask_map_id (tasks : List QueueTask) (tid : String) (f : QueueTask → QueueTask)
    (hf : ∀ u, (f u).id = u.id) :
    (updTask tasks tid f).map (fun t => t.id) = tasks.map (fun t => t.id) := by
  induction tasks with
  | nil => rfl
  | cons t ts ih =>
    by_cases h : t.id = tid <;> simp [updTask, h, hf] at ih ⊢ <;> exact ih

lemma mem_updTask {tasks : List QueueTask} {tid : String} {f : QueueTask → QueueTask}
    {u : QueueTask} (hu : u ∈ updTask tasks tid f) :
    ∃ t ∈ tasks, (t.id = tid ∧ u = f t) ∨ (t.id ≠ tid ∧ u = t) := by
  rcases List.mem_map.1 hu with ⟨t, ht, heq⟩
  by_cases h : t.id = tid
  · exact ⟨t, ht, Or.inl ⟨h, by rw [← heq]; simp [h]⟩⟩
  · exact ⟨t, ht, Or.inr ⟨h, by rw [← heq]; simp [h]⟩⟩

lemma updTask_not_mem_id (tasks : List QueueTask) (tid : String)
    (f : QueueTask → QueueTask) (h : tid ∉ tasks.map (fun t => t.id)) :
    updTask tasks tid f = tasks := by
  induction tasks with
  | nil => rfl
  | cons t ts ih =>
    simp only [List.map_cons, List.mem_cons, not_or] at h
    have h1 : ¬ t.id = tid := fun hh => h.1 hh.symm
    have h2 := ih h.2
    simp only [updTask, List.map_cons, if_neg h1] at h2 ⊢
    rw [h2]

lemma eq_of_mem_id {tasks : List QueueTask}
    (hnd : (tasks.map (fun t => t.id)).Nodup) {a b : QueueTask}
    (ha : a ∈ tasks) (hb : b ∈ tasks) (hid : a.id = b.id) : a = b :=
  List.inj_on_of_nodup_map hnd ha hb hid

lemma mem_updTask_of_ne {tasks : List QueueTask} {tid : String}
    {f : QueueTask → QueueTask} {u : QueueTask} (hu : u ∈ tasks)
    (h : u.id ≠ tid) : u ∈ updTask tasks tid f :=
  List.mem_map.2 ⟨u, hu, by simp [h]⟩

lemma f_mem_updTask {tasks : List QueueTask} {tid : String}
    {f : QueueTask → QueueTask} {u : QueueTask} (hu : u ∈ tasks)
    (h : u.id = tid) : f u ∈ updTask tasks tid f :=
  List.mem_map.2 ⟨u, hu, by simp [h]⟩

lemma eventsOf_nonTask (tid : String) {e : SchedEvent}
    (h : isTaskEvent tid e = false) (l : List SchedEvent) :
    eventsOf tid (l ++ [e]) = eventsOf tid l := by
  simp [eventsOf_append, eventsOf, h]

lemma eventsOf_task (tid : String) {e : SchedEvent}
    (h : isTaskEvent tid e = true) (l : List SchedEvent) :
    eventsOf tid (l ++ [e]) = eventsOf tid l ++ [e] := by
  simp [eventsOf_append, eventsOf, h]

lemma altShape_true_ne_nil {tid : String} {r : List SchedEvent}
    (h : AltShape tid true r) : r ≠ [] := by
  cases h with
  | start l aid hl => simp

lemma altShape_true_ne_failed {tid : String} {r : List SchedEvent}
    (h : AltShape tid true r) (err : TaskError) :
    r ≠ [SchedEvent.task_failed tid err] := by
  intro heq
  have := altShape_terminalCount h
  rw [heq] at this
  simp [terminalCount, isTerminalEvent] at this

lemma altShape_false_ne_failed {tid : String} {r : List SchedEvent}
    (h : AltShape tid false r) (err : TaskError) :
    r ≠ [SchedEvent.task_failed tid err] := by
  intro heq
  have := altShape_terminalCount h
  rw [heq] at this
  simp [terminalCount, isTerminalEvent] at this

lemma schedInv_applyStop {cfg : TaskQueueSettings} {getAgent : String → Option AgentRef}
    {st : SchedState} {evs : List SchedEvent} (h : SchedInv cfg getAgent st evs) :
    SchedInv cfg getAgent (applyStop st) evs := by
  obtain ⟨m, tr⟩ := h
  refine ⟨{ ids_nodup := m.ids_nodup
            running_nodup := by simp [applyStop]
            keys_nodup := m.keys_nodup
            timers_nodup := m.timers_nodup
            run_status := by intro t ht hrun; simp [applyStop] at hrun
            key_status := m.key_status
            timer_status := m.timer_status
            run_key_disjoint := by intro tid htid; simp [applyStop] at htid
            rc_le := m.rc_le
            rc_pos_mr := m.rc_pos_mr
            dispatched_mr := ?_ }, tr⟩
  intro t ht hor
  refine m.dispatched_mr t ht (Or.inr ?_)
  rcases hor with hrun | hkey
  · simp [applyStop] at hrun
  · exact hkey

lemma schedInv_applyTimer {cfg : TaskQueueSettings} {getAgent : String → Option AgentRef}
    {st : SchedState} {evs : List SchedEvent} (h : SchedInv cfg getAgent st evs)
    (tid : String) : SchedInv cfg getAgent (applyTimer st tid) evs := by
  obtain ⟨m, tr⟩ := h
  by_cases hmem : tid ∈ st.retryTimers
  · simp only [applyTimer, if_pos hmem]
    have hidpres : ∀ u : QueueTask, (markPending u).id = u.id := fun u => rfl
    refine ⟨{ ids_nodup := by rw [updTask_map_id _ _ _ hidpres]; exact m.ids_nodup
              running_nodup := m.running_nodup
              keys_nodup := m.keys_nodup
              timers_nodup := m.timers_nodup.erase tid
              run_status := ?_
              key_status := ?_
              timer_status := ?_
              run_key_disjoint := m.run_key_disjoint
              rc_le := ?_
              rc_pos_mr := ?_
              dispatched_mr := ?_ }, ?_⟩
    · intro t ht hrun
      rcases mem_updTask ht with ⟨u, hu, hcase⟩
      rcases hcase with ⟨hid, rfl⟩ | ⟨hid, rfl⟩
      · exfalso
        have h1 := m.run_status u hu (by simpa [markPending, hid] using hrun)
        have h2 := m.timer_status u hu (by rwa [hid])
        rw [h1] at h2
        cases h2
      · exact m.run_status t hu hrun
    · intro t ht hkey
      rcases mem_updTask ht with ⟨u, hu, hcase⟩
      rcases hcase with ⟨hid, rfl⟩ | ⟨hid, rfl⟩
      · exfalso
        have h1 := m.key_status u hu (by simpa [markPending, hid] using hkey)
        have h2 := m.timer_status u hu (by rwa [hid])
        rw [h1] at h2
        cases h2
      · exact m.key_status t hu hkey
    · intro t ht htm
      rcases mem_updTask ht with ⟨u, hu, hcase⟩
      rcases hcase with ⟨hid, rfl⟩ | ⟨hid, rfl⟩
      · exfalso
        have : tid ∈ st.retryTimers.erase tid := by
          simpa [markPending, hid] using htm
        exact ((m.timers_nodup.mem_erase_iff).1 this).1 rfl
      · exact m.timer_status t hu (List.mem_of_mem_erase htm)
    · intro t ht
      rcases mem_updTask ht with ⟨u, hu, hcase⟩
      rcases hcase with ⟨hid, rfl⟩ | ⟨hid, rfl⟩
      · simpa [markPending] using m.rc_le u hu
      · exact m.rc_le t hu
    · intro t ht hpos
      rcases mem_updTask ht with ⟨u, hu, hcase⟩
      rcases hcase with ⟨hid, rfl⟩ | ⟨hid, rfl⟩
      · simpa [markPending] using m.rc_pos_mr u hu (by simpa [markPending] using hpos)
      · exact m.rc_pos_mr t hu hpos
    · intro t ht hor
      rcases mem_updTask ht with ⟨u, hu, hcase⟩
      rcases hcase with ⟨hid, rfl⟩ | ⟨hid, rfl⟩
      · simpa [markPending] using
          m.dispatched_mr u hu (by simpa [markPending] using hor)
      · exact m.dispatched_mr t hu hor
    · intro t ht
      rcases mem_updTask ht with ⟨u, hu, hcase⟩
      rcases hcase with ⟨hid, rfl⟩ | ⟨hid, rfl⟩
      · obtain ⟨hshape, hunk⟩ := tr u hu
        have hst := m.timer_status u hu (by rwa [hid])
        simp only [shapeByStatus, hst] at hshape
        refine ⟨?_, by simpa [markPending] using hunk⟩
        simpa [shapeByStatus, markPending] using hshape
      · exact tr t hu
  · simpa [applyTimer, hmem] using And.intro m tr

lemma schedInv_applyArrival {cfg : TaskQueueSettings} {getAgent : String → Option AgentRef}
    {st : SchedState} {evs : List SchedEvent} (h : SchedInv cfg getAgent st evs)
    (p : String × TaskOutcome) : SchedInv cfg getAgent (applyArrival st p) evs := by
  obtain ⟨m, tr⟩ := h
  by_cases hmem : p.1 ∈ st.running
  · simp only [applyArrival, if_pos hmem]
    refine ⟨{ ids_nodup := m.ids_nodup
              running_nodup := m.running_nodup.erase p.1
              keys_nodup := ?_
              timers_nodup := m.timers_nodup
              run_status := ?_
              key_status := ?_
              timer_status := m.timer_status
              run_key_disjoint := ?_
              rc_le := m.rc_le
              rc_pos_mr := m.rc_pos_mr
              dispatched_mr := ?_ }, tr⟩
    · simp only [keysOf, List.map_append]
      refine List.Nodup.append m.keys_nodup (by simp) ?_
      intro a ha hb
      simp at hb
      rw [hb] at ha
      exact m.run_key_disjoint p.1 hmem ha
    · intro t ht hrun
      exact m.run_status t ht (List.mem_of_mem_erase hrun)
    · intro t ht hkey
      simp only [keysOf, List.map_append, List.mem_append] at hkey
      rcases hkey with hkey | hkey
      · exact m.key_status t ht hkey
      · simp at hkey
        exact m.run_status t ht (by rwa [hkey])
    · intro tid htid
      have h1 := (m.running_nodup.mem_erase_iff).1 htid
      intro hkey
      simp only [keysOf, List.map_append, List.mem_append] at hkey
      rcases hkey with hkey | hkey
      · exact m.run_key_disjoint tid h1.2 hkey
      · simp at hkey
        exact h1.1 hkey
    · intro t ht hor
      refine m.dispatched_mr t ht ?_
      rcases hor with hrun | hkey
      · exact Or.inl (List.mem_of_mem_erase hrun)
      · simp only [keysOf, List.map_append, List.mem_append] at hkey
        rcases hkey with hkey | hkey
        · exact Or.inr hkey
        · simp at hkey
          exact Or.inl (by rwa [hkey])
  · simpa [applyArrival, hmem] using And.intro m tr

lemma schedInv_applyExternal {cfg : TaskQueueSettings} {getAgent : String → Option AgentRef}
    {st : SchedState} {evs : List SchedEvent} (h : SchedInv cfg getAgent st evs)
    (inp : StepInput) : SchedInv cfg getAgent (applyExternal inp st) evs := by
  have hstop : SchedInv cfg getAgent (if inp.stop then applyStop st else st) evs := by
    by_cases hs : inp.stop
    · simpa [hs] using schedInv_applyStop h
    · simpa [hs] using h
  have htimers : ∀ (fires : List String) (st1 : SchedState),
      SchedInv cfg getAgent st1 evs →
      SchedInv cfg getAgent (fires.foldl applyTimer st1) evs := by
    intro fires
    induction fires with
    | nil => intro st1 h1; simpa using h1
    | cons f fs ih =>
        intro st1 h1
        exact ih _ (schedInv_applyTimer h1 f)
  have harr : ∀ (arrs : List (String × TaskOutcome)) (st1 : SchedState),
      SchedInv cfg getAgent st1 evs →
      SchedInv cfg getAgent (arrs.foldl applyArrival st1) evs := by
    intro arrs
    induction arrs with
    | nil => intro st1 h1; simpa using h1
    | cons a as ih =>
        intro st1 h1
        exact ih _ (schedInv_applyArrival h1 a)
  exact harr _ _ (htimers _ _ hstop)

lemma schedInv_dispatchTask {cfg : TaskQueueSettings} {getAgent : String → Option AgentRef}
    {now : Nat} {st : SchedState} {evs : List SchedEvent} {t u : QueueTask}
    (h : SchedInv cfg getAgent st evs)
    (hu : u ∈ st.tasks) (hid : u.id = t.id) (hag : u.agentId = t.agentId)
    (hstat : u.status = TaskStatus.pending ∨ u.status = TaskStatus.queued) :
    SchedInv cfg getAgent (dispatchTask cfg getAgent now st t).1
      (evs ++ (dispatchTask cfg getAgent now st t).2) := by
  obtain ⟨m, tr⟩ := h
  have hnrun : t.id ∉ st.running := by
    intro hmem
    have := m.run_status u hu (by rwa [hid])
    rcases hstat with hs | hs <;> rw [hs] at this <;> cases this
  have hnkey : t.id ∉ keysOf st.completedResults := by
    intro hmem
    have := m.key_status u hu (by rwa [hid])
    rcases hstat with hs | hs <;> rw [hs] at this <;> cases this
  have hntm : t.id ∉ st.retryTimers := by
    intro hmem
    have := m.timer_status u hu (by rwa [hid])
    rcases hstat with hs | hs <;> rw [hs] at this <;> cases this
  cases hga : getAgent t.agentId with
  | none =>
    simp only [dispatchTask, hga]
    have hidpres : ∀ v : QueueTask, (markAgentMissing now t.agentId v).id = v.id :=
      fun v => rfl
    refine ⟨{ ids_nodup := by rw [updTask_map_id _ _ _ hidpres]; exact m.ids_nodup
              running_nodup := m.running_nodup
              keys_nodup := m.keys_nodup
              timers_nodup := m.timers_nodup
              run_status := ?_
              key_status := ?_
              timer_status := ?_
              run_key_disjoint := m.run_key_disjoint
              rc_le := ?_
              rc_pos_mr := ?_
              dispatched_mr := ?_ }, ?_⟩
    · intro v hv hrun
      rcases mem_updTask hv with ⟨w, hw, hcase⟩
      rcases hcase with ⟨hwid, rfl⟩ | ⟨hwid, rfl⟩
      · exact absurd (by simpa [markAgentMissing, hwid] using hrun) hnrun
      · exact m.run_status v hw hrun
    · intro v hv hkey
      rcases mem_updTask hv with ⟨w, hw, hcase⟩
      rcases hcase with ⟨hwid, rfl⟩ | ⟨hwid, rfl⟩
      · exact absurd (by simpa [markAgentMissing, hwid] using hkey) hnkey
      · exact m.key_status v hw hkey
    · intro v hv htm
      rcases mem_updTask hv with ⟨w, hw, hcase⟩
      rcases hcase with ⟨hwid, rfl⟩ | ⟨hwid, rfl⟩
      · exact absurd (by simpa [markAgentMissing, hwid] using htm) hntm
      · exact m.timer_status v hw htm
    · intro v hv
      rcases mem_updTask hv with ⟨w, hw, hcase⟩
      rcases hcase with ⟨hwid, rfl⟩ | ⟨hwid, rfl⟩
      · simpa [markAgentMissing] using m.rc_le w hw
      · exact m.rc_le v hw
    · intro v hv hpos
      rcases mem_updTask hv with ⟨w, hw, hcase⟩
      rcases hcase with ⟨hwid, rfl⟩ | ⟨hwid, rfl⟩
      · simpa [markAgentMissing] using
          m.rc_pos_mr w hw (by simpa [markAgentMissing] using hpos)
      · exact m.rc_pos_mr v hw hpos
    · intro v hv hor
      rcases mem_updTask hv with ⟨w, hw, hcase⟩
      rcases hcase with ⟨hwid, rfl⟩ | ⟨hwid, rfl⟩
      · exfalso
        rcases hor with hh | hh
        · exact hnrun (by simpa [markAgentMissing, hwid] using hh)
        · exact hnkey (by simpa [markAgentMissing, hwid] using hh)
      · exact m.dispatched_mr v hw hor
    · intro v hv
      rcases mem_updTask hv with ⟨w, hw, hcase⟩
      rcases hcase with ⟨hwid, rfl⟩ | ⟨hwid, rfl⟩
      · have hwu : w = u := eq_of_mem_id m.ids_nodup hw hu (hwid.trans hid.symm)
        subst hwu
        obtain ⟨hshape, hunk⟩ := tr w hw
        have hrnil : eventsOf w.id evs = [] := by
          rcases hunk (by rwa [hag]) with hnil | ⟨err, heq⟩
          · exact hnil
          · exfalso
            rcases hstat with hs | hs <;>
              simp only [shapeByStatus, hs] at hshape <;>
              exact altShape_false_ne_failed hshape err heq
        have hevid : (markAgentMissing now t.agentId w).id = w.id := rfl
        have hevs : eventsOf w.id
            (evs ++ [SchedEvent.task_failed t.id (agentNotFoundError t.agentId now)])
            = [SchedEvent.task_failed t.id (agentNotFoundError t.agentId now)] := by
          rw [eventsOf_task w.id (by simp [isTaskEvent, hid]) evs, hrnil]
          simp
        constructor
        · simp only [shapeByStatus, markAgentMissing, hevid, hevs]
          exact Or.inr ⟨agentNotFoundError t.agentId now, by rw [hid], by
            show getAgent w.agentId = none
            rwa [hag]⟩
        · intro _
          rw [hevid, hevs, hid]
          exact Or.inr ⟨agentNotFoundError t.agentId now, rfl⟩
      · obtain ⟨hshape, hunk⟩ := tr v hw
        have hne : isTaskEvent v.id
            (SchedEvent.task_failed t.id (agentNotFoundError t.agentId now)) = false := by
          simp [isTaskEvent]
          intro hh
          exact absurd hh.symm hwid
        rw [eventsOf_nonTask v.id hne evs]
        exact ⟨hshape, hunk⟩
  | some a =>
    simp only [dispatchTask, hga]
    have hidpres : ∀ v : QueueTask, (markStarted cfg now v).id = v.id := fun v => rfl
    refine ⟨{ ids_nodup := by rw [updTask_map_id _ _ _ hidpres]; exact m.ids_nodup
              running_nodup := ?_
              keys_nodup := m.keys_nodup
              timers_nodup := m.timers_nodup
              run_status := ?_
              key_status := ?_
              timer_status := ?_
              run_key_disjoint := ?_
              rc_le := ?_
              rc_pos_mr := ?_
              dispatched_mr := ?_ }, ?_⟩
    · exact List.Nodup.append m.running_nodup (by simp)
        (by intro x hx hy; simp at hy; rw [hy] at hx; exact hnrun hx)
    · intro v hv hrun
      rcases mem_updTask hv with ⟨w, hw, hcase⟩
      rcases hcase with ⟨hwid, rfl⟩ | ⟨hwid, rfl⟩
      · rfl
      · rcases List.mem_append.1 hrun with hh | hh
        · exact m.run_status v hw hh
        · simp at hh
          exact absurd hh hwid
    · intro v hv hkey
      rcases mem_updTask hv with ⟨w, hw, hcase⟩
      rcases hcase with ⟨hwid, rfl⟩ | ⟨hwid, rfl⟩
      · exact absurd (by simpa [markStarted, hwid] using hkey) hnkey
      · exact m.key_status v hw hkey
    · intro v hv htm
      rcases mem_updTask hv with ⟨w, hw, hcase⟩
      rcases hcase with ⟨hwid, rfl⟩ | ⟨hwid, rfl⟩
      · exact absurd (by simpa [markStarted, hwid] using htm) hntm
      · exact m.timer_status v hw htm
    · intro tid htid
      rcases List.mem_append.1 htid with hh | hh
      · exact m.run_key_disjoint tid hh
      · simp at hh
        rw [hh]
        exact hnkey
    · intro v hv
      rcases mem_updTask hv with ⟨w, hw, hcase⟩
      rcases hcase with ⟨hwid, rfl⟩ | ⟨hwid, rfl⟩
      · show w.retryCount ≤ cfg.retryCount
        rcases Nat.eq_zero_or_pos w.retryCount with hz | hp
        · rw [hz]; exact Nat.zero_le _
        · exact (m.rc_pos_mr w hw hp) ▸ m.rc_le w hw
      · exact m.rc_le v hw
    · intro v hv _
      rcases mem_updTask hv with ⟨w, hw, hcase⟩
      rcases hcase with ⟨hwid, rfl⟩ | ⟨hwid, rfl⟩
      · rfl
      · exact m.rc_pos_mr v hw (by assumption)
    · intro v hv hor
      rcases mem_updTask hv with ⟨w, hw, hcase⟩
      rcases hcase with ⟨hwid, rfl⟩ | ⟨hwid, rfl⟩
      · rfl
      · refine m.dispatched_mr v hw ?_
        rcases hor with hh | hh
        · rcases List.mem_append.1 hh with hh2 | hh2
          · exact Or.inl hh2
          · simp at hh2
            exact absurd hh2 hwid
        · exact Or.inr hh
    · intro v hv
      rcases mem_updTask hv with ⟨w, hw, hcase⟩
      rcases hcase with ⟨hwid, rfl⟩ | ⟨hwid, rfl⟩
      · have hwu : w = u := eq_of_mem_id m.ids_nodup hw hu (hwid.trans hid.symm)
        subst hwu
        obtain ⟨hshape, hunk⟩ := tr w hw
        have halt : AltShape w.id false (eventsOf w.id evs) := by
          rcases hstat with hs | hs <;> simpa only [shapeByStatus, hs] using hshape
        have hevid : (markStarted cfg now w).id = w.id := rfl
        have hevs : eventsOf w.id (evs ++ [SchedEvent.task_started t.id t.agentId])
            = eventsOf w.id evs ++ [SchedEvent.task_started t.id t.agentId] :=
          eventsOf_task w.id (by simp [isTaskEvent, hid]) evs
        constructor
        · simp only [shapeByStatus, markStarted, hevid, hevs]
          rw [show SchedEvent.task_started t.id t.agentId
              = SchedEvent.task_started w.id t.agentId by rw [hid]]
          exact AltShape.start _ t.agentId halt
        · intro hnone
          rw [show (markStarted cfg now w).agentId = w.agentId from rfl, hag, hga] at hnone
          cases hnone
      · obtain ⟨hshape, hunk⟩ := tr v hw
        have hne : isTaskEvent v.id (SchedEvent.task_started t.id t.agentId) = false := by
          simp [isTaskEvent]
          intro hh
          exact absurd hh.symm hwid
        rw [eventsOf_nonTask v.id hne evs]
        exact ⟨hshape, hunk⟩

lemma dispatchTask_tasks (cfg : TaskQueueSettings) (getAgent : String → Option AgentRef)
    (now : Nat) (st : SchedState) (t : QueueTask) :
    ∃ f : QueueTask → QueueTask,
      (∀ v, (f v).id = v.id ∧ (f v).agentId = v.agentId ∧
        (f v).status ≠ TaskStatus.pending ∧ (f v).status ≠ TaskStatus.queued)
      ∧ (dispatchTask cfg getAgent now st t).1.tasks = updTask st.tasks t.id f := by
  cases hga : getAgent t.agentId with
  | none =>
      exact ⟨markAgentMissing now t.agentId,
        fun v => ⟨rfl, rfl, by simp [markAgentMissing], by simp [markAgentMissing]⟩,
        by simp [dispatchTask, hga]⟩
  | some a =>
      exact ⟨markStarted cfg now,
        fun v => ⟨rfl, rfl, by simp [markStarted], by simp [markStarted]⟩,
        by simp [dispatchTask, hga]⟩

lemma schedInv_dispatchAll {cfg : TaskQueueSettings} {getAgent : String → Option AgentRef}
    {now : Nat} :
    ∀ (ts : List QueueTask) (st : SchedState) (evs : List SchedEvent),
      SchedInv cfg getAgent st evs →
      (∀ t ∈ ts, ∃ u ∈ st.tasks, u.id = t.id ∧ u.agentId = t.agentId ∧
        (u.status = TaskStatus.pending ∨ u.status = TaskStatus.queued)) →
      ((ts.map (fun t => t.id)).Nodup) →
      SchedInv cfg getAgent (dispatchAll cfg getAgent now st ts).1
        (evs ++ (dispatchAll cfg getAgent now st ts).2) := by
  intro ts
  induction ts with
  | nil => intro st evs h _ _; simpa [dispatchAll] using h
  | cons t ts ih =>
    intro st evs h hpre hnd
    simp only [List.map_cons, List.nodup_cons] at hnd
    obtain ⟨u, hu, huid, huag, hust⟩ := hpre t (List.mem_cons_self t ts)
    have h1 := @schedInv_dispatchTask cfg getAgent now st evs t u h hu huid huag hust
    obtain ⟨f, hf, htasks⟩ := dispatchTask_tasks cfg getAgent now st t
    have hpre2 : ∀ t2 ∈ ts, ∃ u2 ∈ (dispatchTask cfg getAgent now st t).1.tasks,
        u2.id = t2.id ∧ u2.agentId = t2.agentId ∧
        (u2.status = TaskStatus.pending ∨ u2.status = TaskStatus.queued) := by
      intro t2 ht2
      obtain ⟨u2, hu2, h2id, h2ag, h2st⟩ := hpre t2 (List.mem_cons_of_mem t ht2)
      have hne : u2.id ≠ t.id := by
        rw [h2id]
        intro hh
        exact hnd.1 (hh ▸ List.mem_map.2 ⟨t2, ht2, rfl⟩)
      exact ⟨u2, by rw [htasks]; exact mem_updTask_of_ne hu2 hne, h2id, h2ag, h2st⟩
    have h2 := ih (dispatchTask cfg getAgent now st t).1
      (evs ++ (dispatchTask cfg getAgent now st t).2) h1 hpre2 hnd.2
    simp only [dispatchAll]
    rw [← List.append_assoc]
    exact h2

lemma keysOf_removeKey_not_mem (l : List (String × TaskOutcome)) (k : String) :
    k ∉ keysOf (removeKey l k) := by
  intro h
  rcases List.mem_map.1 h with ⟨p, hp, hk⟩
  have := List.of_mem_filter hp
  simp at this
  exact this hk

lemma keysOf_removeKey_subset (l : List (String × TaskOutcome)) (k : String) :
    ∀ k2 ∈ keysOf (removeKey l k), k2 ∈ keysOf l := by
  intro k2 h
  rcases List.mem_map.1 h with ⟨p, hp, hk⟩
  exact List.mem_map.2 ⟨p, List.mem_of_mem_filter hp, hk⟩

lemma keysOf_removeKey_nodup {l : List (String × TaskOutcome)}
    (h : (keysOf l).Nodup) (k : String) : (keysOf (removeKey l k)).Nodup := by
  have hsub : List.Sublist (removeKey l k) l := List.filter_sublist l
  simp only [keysOf]
  exact List.Nodup.sublist (hsub.map (fun p => p.1)) (by simpa [keysOf] using h)

lemma mem_removeKey {l : List (String × TaskOutcome)} {k : String}
    {e : String × TaskOutcome} (he : e ∈ l) (hk : e.1 ≠ k) : e ∈ removeKey l k :=
  List.mem_filter.2 ⟨he, by simpa using hk⟩

lemma schedInv_drainEntry {cfg : TaskQueueSettings} {getAgent : String → Option AgentRef}
    {now : Nat} {st : SchedState} {evs : List SchedEvent} {e : String × TaskOutcome}
    (h : SchedInv cfg getAgent st evs) (he : e ∈ st.completedResults) :
    SchedInv cfg getAgent (drainEntry now st e).1 (evs ++ (drainEntry now st e).2)
    ∧ (∀ e2 ∈ st.completedResults, e2.1 ≠ e.1 →
        e2 ∈ (drainEntry now st e).1.completedResults) := by
  obtain ⟨m, tr⟩ := h
  have hkeymem : e.1 ∈ keysOf st.completedResults := List.mem_map.2 ⟨e, he, rfl⟩
  cases hfind : st.tasks.find? (fun t => t.id == e.1) with
  | none =>
      simp only [drainEntry, hfind]
      exact ⟨⟨m, by simpa using tr⟩, fun e2 he2 _ => he2⟩
  | some task =>
    have htmem : task ∈ st.tasks := List.mem_of_find?_eq_some hfind
    have htid : task.id = e.1 := by simpa using List.find?_some hfind
    have htprog : task.status = TaskStatus.in_progress :=
      m.key_status task htmem (htid ▸ hkeymem)
    have hnrun : e.1 ∉ st.running := fun hh => m.run_key_disjoint e.1 hh hkeymem
    have hntm : e.1 ∉ st.retryTimers := by
      intro hh
      have := m.timer_status task htmem (htid ▸ hh)
      rw [htprog] at this
      cases this
    have hmr : task.maxRetries = cfg.retryCount :=
      m.dispatched_mr task htmem (Or.inr (htid ▸ hkeymem))
    obtain ⟨hshape, hunk⟩ := tr task htmem
    have hstarted : AltShape task.id true (eventsOf task.id evs) := by
      simpa only [shapeByStatus, htprog] using hshape
    have hknown : ∀ x, getAgent task.agentId = x → x ≠ none := by
      intro x hx hnone
      rw [hnone] at hx
      rcases hunk hx with hnil | ⟨err, heq⟩
      · exact altShape_true_ne_nil hstarted hnil
      · exact altShape_true_ne_failed hstarted err heq
    have hothers : ∀ (f : QueueTask → QueueTask) (hf : ∀ v, (f v).id = v.id)
        (ev : SchedEvent) (hev : ∀ tid2, tid2 ≠ e.1 → isTaskEvent tid2 ev = false)
        (w : QueueTask), w ∈ st.tasks → w.id ≠ e.1 →
        TraceShape getAgent w (eventsOf w.id (evs ++ [ev])) := by
      intro f hf ev hev w hw hwid
      rw [eventsOf_nonTask w.id (hev w.id hwid) evs]
      exact tr w hw
    cases hout : e.2 with
    | result r =>
      simp only [drainEntry, hfind, hout]
      have hidpres : ∀ v : QueueTask, (markCompleted now r v).id = v.id := fun v => rfl
      refine ⟨⟨{ ids_nodup := by rw [updTask_map_id _ _ _ hidpres]; exact m.ids_nodup
                 running_nodup := m.running_nodup
                 keys_nodup := keysOf_removeKey_nodup m.keys_nodup e.1
                 timers_nodup := m.timers_nodup
                 run_status := ?_
                 key_status := ?_
                 timer_status := ?_
                 run_key_disjoint := ?_
                 rc_le := ?_
                 rc_pos_mr := ?_
                 dispatched_mr := ?_ }, ?_⟩, ?_⟩
      · intro v hv hrun
        rcases mem_updTask hv with ⟨w, hw, hcase⟩
        rcases hcase with ⟨hwid, rfl⟩ | ⟨hwid, rfl⟩
        · exact absurd (by simpa [markCompleted, hwid] using hrun) hnrun
        · exact m.run_status v hw hrun
      · intro v hv hkey
        rcases mem_updTask hv with ⟨w, hw, hcase⟩
        rcases hcase with ⟨hwid, rfl⟩ | ⟨hwid, rfl⟩
        · exact absurd (by simpa [markCompleted, hwid] using hkey)
            (keysOf_removeKey_not_mem _ _)
        · exact m.key_status v hw (keysOf_removeKey_subset _ _ _ hkey)
      · intro v hv htm
        rcases mem_updTask hv with ⟨w, hw, hcase⟩
        rcases hcase with ⟨hwid, rfl⟩ | ⟨hwid, rfl⟩
        · exact absurd (by simpa [markCompleted, hwid] using htm) hntm
        · exact m.timer_status v hw htm
      · intro tid htid2 hkey
        exact m.run_key_disjoint tid htid2 (keysOf_removeKey_subset _ _ _ hkey)
      · intro v hv
        rcases mem_updTask hv with ⟨w, hw, hcase⟩
        rcases hcase with ⟨hwid, rfl⟩ | ⟨hwid, rfl⟩
        · simpa [markCompleted] using m.rc_le w hw
        · exact m.rc_le v hw
      · intro v hv hpos
        rcases mem_updTask hv with ⟨w, hw, hcase⟩
        rcases hcase with ⟨hwid, rfl⟩ | ⟨hwid, rfl⟩
        · simpa [markCompleted] using
            m.rc_pos_mr w hw (by simpa [markCompleted] using hpos)
        · exact m.rc_pos_mr v hw hpos
      · intro v hv hor
        rcases mem_updTask hv with ⟨w, hw, hcase⟩
        rcases hcase with ⟨hwid, rfl⟩ | ⟨hwid, rfl⟩
        · have hwt : w = task := eq_of_mem_id m.ids_nodup hw htmem (hwid.trans htid.symm)
          subst hwt
          simpa [markCompleted] using hmr
        · refine m.dispatched_mr v hw ?_
          rcases hor with hh | hh
          · exact Or.inl hh
          · exact Or.inr (keysOf_removeKey_subset _ _ _ hh)
      · intro v hv
        rcases mem_updTask hv with ⟨w, hw, hcase⟩
        rcases hcase with ⟨hwid, rfl⟩ | ⟨hwid, rfl⟩
        · have hwt : w = task := eq_of_mem_id m.ids_nodup hw htmem (hwid.trans htid.symm)
          subst hwt
          have hevs : eventsOf w.id (evs ++ [SchedEvent.task_completed e.1 r])
              = eventsOf w.id evs ++ [SchedEvent.task_completed e.1 r] :=
            eventsOf_task w.id (by simp [isTaskEvent, htid]) evs
          constructor
          · show shapeByStatus getAgent (markCompleted now r w) _
            simp only [shapeByStatus, markCompleted, hevs]
            exact ⟨eventsOf w.id evs, r, hstarted, by rw [htid]⟩
          · intro hnone
            exact absurd rfl (hknown none hnone)
        · exact hothers (markCompleted now r) (fun v => rfl) _
            (by intro tid2 hne; simp [isTaskEvent]; intro hh; exact absurd hh.symm hne)
            v hw hwid
      · intro e2 he2 hne
        exact mem_removeKey he2 hne
    | error err =>
      by_cases hretry : err.retryable ∧ task.retryCount < task.maxRetries
      · simp only [drainEntry, hfind, hout, if_pos hretry]
        have hidpres : ∀ v : QueueTask, (markRetrying v).id = v.id := fun v => rfl
        refine ⟨⟨{ ids_nodup := by rw [updTask_map_id _ _ _ hidpres]; exact m.ids_nodup
                   running_nodup := m.running_nodup
                   keys_nodup := keysOf_removeKey_nodup m.keys_nodup e.1
                   timers_nodup := ?_
                   run_status := ?_
                   key_status := ?_
                   timer_status := ?_
                   run_key_disjoint := ?_
                   rc_le := ?_
                   rc_pos_mr := ?_
                   dispatched_mr := ?_ }, ?_⟩, ?_⟩
        · exact List.Nodup.append m.timers_nodup (by simp)
            (by intro x hx hy; simp at hy; rw [hy] at hx; exact hntm hx)
        · intro v hv hrun
          rcases mem_updTask hv with ⟨w, hw, hcase⟩
          rcases hcase with ⟨hwid, rfl⟩ | ⟨hwid, rfl⟩
          · exact absurd (by simpa [markRetrying, hwid] using hrun) hnrun
          · exact m.run_status v hw hrun
        · intro v hv hkey
          rcases mem_updTask hv with ⟨w, hw, hcase⟩
          rcases hcase with ⟨hwid, rfl⟩ | ⟨hwid, rfl⟩
          · exact absurd (by simpa [markRetrying, hwid] using hkey)
              (keysOf_removeKey_not_mem _ _)
          · exact m.key_status v hw (keysOf_removeKey_subset _ _ _ hkey)
        · intro v hv htm
          rcases mem_updTask hv with ⟨w, hw, hcase⟩
          rcases hcase with ⟨hwid, rfl⟩ | ⟨hwid, rfl⟩
          · rfl
          · rcases List.mem_append.1 htm with hh | hh
            · exact m.timer_status v hw hh
            · simp at hh
              exact absurd hh hwid
        · intro tid htid2 hkey
          exact m.run_key_disjoint tid htid2 (keysOf_removeKey_subset _ _ _ hkey)
        · intro v hv
          rcases mem_updTask hv with ⟨w, hw, hcase⟩
          rcases hcase with ⟨hwid, rfl⟩ | ⟨hwid, rfl⟩
          · have hwt : w = task := eq_of_mem_id m.ids_nodup hw htmem (hwid.trans htid.symm)
            subst hwt
            exact hretry.2
          · exact m.rc_le v hw
        · intro v hv hpos
          rcases mem_updTask hv with ⟨w, hw, hcase⟩
          rcases hcase with ⟨hwid, rfl⟩ | ⟨hwid, rfl⟩
          · have hwt : w = task := eq_of_mem_id m.ids_nodup hw htmem (hwid.trans htid.symm)
            subst hwt
            simpa [markRetrying] using hmr
          · exact m.rc_pos_mr v hw hpos
        · intro v hv hor
          rcases mem_updTask hv with ⟨w, hw, hcase⟩
          rcases hcase with ⟨hwid, rfl⟩ | ⟨hwid, rfl⟩
          · have hwt : w = task := eq_of_mem_id m.ids_nodup hw htmem (hwid.trans htid.symm)
            subst hwt
            simpa [markRetrying] using hmr
          · refine m.dispatched_mr v hw ?_
            rcases hor with hh | hh
            · exact Or.inl hh
            · exact Or.inr (keysOf_removeKey_subset _ _ _ hh)
        · intro v hv
          rcases mem_updTask hv with ⟨w, hw, hcase⟩
          rcases hcase with ⟨hwid, rfl⟩ | ⟨hwid, rfl⟩
          · have hwt : w = task := eq_of_mem_id m.ids_nodup hw htmem (hwid.trans htid.symm)
            subst hwt
            have hevs : eventsOf w.id
                (evs ++ [SchedEvent.task_retrying e.1 (w.retryCount + 1) w.maxRetries])
                = eventsOf w.id evs
                  ++ [SchedEvent.task_retrying e.1 (w.retryCount + 1) w.maxRetries] :=
              eventsOf_task w.id (by simp [isTaskEvent, htid]) evs
            constructor
            · show shapeByStatus getAgent (markRetrying w) _
              simp only [shapeByStatus, markRetrying, hevs]
              rw [show SchedEvent.task_retrying e.1 (w.retryCount + 1) w.maxRetries
                  = SchedEvent.task_retrying w.id (w.retryCount + 1) w.maxRetries by
                    rw [htid]]
              exact AltShape.retry _ _ _ hstarted
            · intro hnone
              exact absurd rfl (hknown none hnone)
          · exact hothers markRetrying (fun v => rfl) _
              (by intro tid2 hne; simp [isTaskEvent]; intro hh; exact absurd hh.symm hne)
              v hw hwid
        · intro e2 he2 hne
          exact mem_removeKey he2 hne
      · simp only [drainEntry, hfind, hout, if_neg hretry]
        have hidpres : ∀ v : QueueTask, (markFailed now err v).id = v.id := fun v => rfl
        refine ⟨⟨{ ids_nodup := by rw [updTask_map_id _ _ _ hidpres]; exact m.ids_nodup
                   running_nodup := m.running_nodup
                   keys_nodup := keysOf_removeKey_nodup m.keys_nodup e.1
                   timers_nodup := m.timers_nodup
                   run_status := ?_
                   key_status := ?_
                   timer_status := ?_
                   run_key_disjoint := ?_
                   rc_le := ?_
                   rc_pos_mr := ?_
                   dispatched_mr := ?_ }, ?_⟩, ?_⟩
        · intro v hv hrun
          rcases mem_updTask hv with ⟨w, hw, hcase⟩
          rcases hcase with ⟨hwid, rfl⟩ | ⟨hwid, rfl⟩
          · exact absurd (by simpa [markFailed, hwid] using hrun) hnrun
          · exact m.run_status v hw hrun
        · intro v hv hkey
          rcases mem_updTask hv with ⟨w, hw, hcase⟩
          rcases hcase with ⟨hwid, rfl⟩ | ⟨hwid, rfl⟩
          · exact absurd (by simpa [markFailed, hwid] using hkey)
              (keysOf_removeKey_not_mem _ _)
          · exact m.key_status v hw (keysOf_removeKey_subset _ _ _ hkey)
        · intro v hv htm
          rcases mem_updTask hv with ⟨w, hw, hcase⟩
          rcases hcase with ⟨hwid, rfl⟩ | ⟨hwid, rfl⟩
          · exact absurd (by simpa [markFailed, hwid] using htm) hntm
          · exact m.timer_status v hw htm
        · intro tid htid2 hkey
          exact m.run_key_disjoint tid htid2 (keysOf_removeKey_subset _ _ _ hkey)
        · intro v hv
          rcases mem_updTask hv with ⟨w, hw, hcase⟩
          rcases hcase with ⟨hwid, rfl⟩ | ⟨hwid, rfl⟩
          · simpa [markFailed] using m.rc_le w hw
          · exact m.rc_le v hw
        · intro v hv hpos
          rcases mem_updTask hv with ⟨w, hw, hcase⟩
          rcases hcase with ⟨hwid, rfl⟩ | ⟨hwid, rfl⟩
          · simpa [markFailed] using
              m.rc_pos_mr w hw (by simpa [markFailed] using hpos)
          · exact m.rc_pos_mr v hw hpos
        · intro v hv hor
          rcases mem_updTask hv with ⟨w, hw, hcase⟩
          rcases hcase with ⟨hwid, rfl⟩ | ⟨hwid, rfl⟩
          · have hwt : w = task := eq_of_mem_id m.ids_nodup hw htmem (hwid.trans htid.symm)
            subst hwt
            simpa [markFailed] using hmr
          · refine m.dispatched_mr v hw ?_
            rcases hor with hh | hh
            · exact Or.inl hh
            · exact Or.inr (keysOf_removeKey_subset _ _ _ hh)
        · intro v hv
          rcases mem_updTask hv with ⟨w, hw, hcase⟩
          rcases hcase with ⟨hwid, rfl⟩ | ⟨hwid, rfl⟩
          · have hwt : w = task := eq_of_mem_id m.ids_nodup hw htmem (hwid.trans htid.symm)
            subst hwt
            have hevs : eventsOf w.id (evs ++ [SchedEvent.task_failed e.1 err])
                = eventsOf w.id evs ++ [SchedEvent.task_failed e.1 err] :=
              eventsOf_task w.id (by simp [isTaskEvent, htid]) evs
            constructor
            · show shapeByStatus getAgent (markFailed now err w) _
              simp only [shapeByStatus, markFailed, hevs]
              exact Or.inl ⟨eventsOf w.id evs, err, hstarted, by rw [htid]⟩
            · intro hnone
              exact absurd rfl (hknown none hnone)
          · exact hothers (markFailed now err) (fun v => rfl) _
              (by intro tid2 hne; simp [isTaskEvent]; intro hh; exact absurd hh.symm hne)
              v hw hwid
        · intro e2 he2 hne
          exact mem_removeKey he2 hne

lemma schedInv_drainAll {cfg : TaskQueueSettings} {getAgent : String → Option AgentRef}
    {now : Nat} :
    ∀ (es : List (String × TaskOutcome)) (st : SchedState) (evs : List SchedEvent),
      SchedInv cfg getAgent st evs →
      (∀ e ∈ es, e ∈ st.completedResults) →
      ((keysOf es).Nodup) →
      SchedInv cfg getAgent (drainAll now st es).1 (evs ++ (drainAll now st es).2) := by
  intro es
  induction es with
  | nil => intro st evs h _ _; simpa [drainAll] using h
  | cons e es ih =>
    intro st evs h hmem hnd
    simp only [keysOf, List.map_cons, List.nodup_cons] at hnd
    obtain ⟨h1, hkeep⟩ := schedInv_drainEntry h (hmem e (List.mem_cons_self e es))
    have hmem2 : ∀ e2 ∈ es, e2 ∈ (drainEntry now st e).1.completedResults := by
      intro e2 he2
      refine hkeep e2 (hmem e2 (List.mem_cons_of_mem _ he2)) ?_
      intro hh
      exact hnd.1 (hh ▸ List.mem_map.2 ⟨e2, he2, rfl⟩)
    have h2 := ih _ _ h1 hmem2 (by simpa [keysOf] using hnd.2)
    simp only [drainAll]
    rw [← List.append_assoc]
    exact h2

lemma schedInv_congr_events {cfg : TaskQueueSettings} {getAgent : String → Option AgentRef}
    {st : SchedState} {E1 E2 : List SchedEvent} (h : SchedInv cfg getAgent st E1)
    (heq : ∀ tid, eventsOf tid E1 = eventsOf tid E2) : SchedInv cfg getAgent st E2 :=
  ⟨h.1, fun t ht => (heq t.id) ▸ h.2 t ht⟩

lemma readyFromTasks_mem {rc : Nat} {tasks : List QueueTask} {mc : Nat} :
    ∀ t ∈ readyFromTasks rc tasks mc, t ∈ tasks ∧
      (t.status = TaskStatus.pending ∨ t.status = TaskStatus.queued) := by
  intro t ht
  by_cases hslots : ((mc : Int) - (rc : Int)) ≤ 0
  · simp [readyFromTasks, hslots] at ht
  · simp only [readyFromTasks, if_neg hslots] at ht
    have h1 := List.mem_of_mem_take ht
    have h2 := (sortByPriority_perm _).mem_iff.1 h1
    refine ⟨List.mem_of_mem_filter h2, ?_⟩
    have := List.of_mem_filter h2
    simpa [decide_eq_true_eq] using this

lemma readyFromTasks_ids_nodup {rc : Nat} {tasks : List QueueTask} {mc : Nat}
    (hnd : (tasks.map (fun t => t.id)).Nodup) :
    ((readyFromTasks rc tasks mc).map (fun t => t.id)).Nodup := by
  by_cases hslots : ((mc : Int) - (rc : Int)) ≤ 0
  · simp [readyFromTasks, hslots]
  · simp only [readyFromTasks, if_neg hslots]
    have hfil : (List.map (fun t => t.id) (tasks.filter (fun t =>
        t.status == TaskStatus.pending || t.status == TaskStatus.queued))).Nodup :=
      List.Nodup.sublist ((List.filter_sublist tasks).map (fun t => t.id)) hnd
    have hsort : (List.map (fun t => t.id) (sortByPriority (tasks.filter (fun t =>
        t.status == TaskStatus.pending || t.status == TaskStatus.queued)))).Nodup := by
      refine (List.Perm.nodup_iff ?_).2 hfil
      exact (sortByPriority_perm _).map (fun t => t.id)
    have htake : List.Sublist
        (List.take ((mc : Int) - (rc : Int)).toNat (sortByPriority (tasks.filter (fun t =>
          t.status == TaskStatus.pending || t.status == TaskStatus.queued))))
        (sortByPriority (tasks.filter (fun t =>
          t.status == TaskStatus.pending || t.status == TaskStatus.queued))) :=
      List.take_sublist _ _
    exact List.Nodup.sublist (htake.map (fun t => t.id)) hsort

lemma schedInv_schedLoop {cfg : TaskQueueSettings} {getAgent : String → Option AgentRef}
    {now : Nat} :
    ∀ (inputs : List StepInput) (st : SchedState) (evs : List SchedEvent),
      SchedInv cfg getAgent st evs →
      SchedInv cfg getAgent (schedLoop cfg getAgent now inputs st).1
        (evs ++ (schedLoop cfg getAgent now inputs st).2.1) := by
  intro inputs
  induction inputs with
  | nil => intro st evs h; simpa [schedLoop] using h
  | cons inp rest ih =>
    intro st evs h
    have h0 := schedInv_applyExternal h inp
    set st0 := applyExternal inp st with hst0
    by_cases hcond : (hasWorkRemaining st0.tasks && !st0.isStopped) = true
    · by_cases hps : (inp.pause && inp.stopDuringPause) = true
      · simp only [schedLoop]
        rw [← hst0, if_pos hcond, if_pos hps]
        refine schedInv_congr_events (schedInv_applyStop h0) ?_
        intro tid
        simp [eventsOf_append, eventsOf, isTaskEvent]
      · have hgate : ∀ tid, eventsOf tid
            (if inp.pause = true then [SchedEvent.queue_paused, SchedEvent.queue_resumed]
             else []) = [] := by
          intro tid
          by_cases hp : inp.pause <;> simp [hp, eventsOf, isTaskEvent]
        by_cases hready : (readyFromTasks st0.running.length st0.tasks
            cfg.maxConcurrency).isEmpty = true
        · by_cases hrun : st0.running.length > 0
          · have hrec := ih st0 evs h0
            simp only [schedLoop]
            rw [← hst0, if_pos hcond, if_neg hps, if_pos hready, if_pos hrun]
            refine schedInv_congr_events hrec ?_
            intro tid
            simp [eventsOf_append, hgate tid]
          · simp only [schedLoop]
            rw [← hst0, if_pos hcond, if_neg hps, if_pos hready, if_neg hrun]
            refine schedInv_congr_events h0 ?_
            intro tid
            simp [eventsOf_append, hgate tid]
        · have hready2 : ∀ t ∈ readyFromTasks st0.running.length st0.tasks
              cfg.maxConcurrency, ∃ u ∈ st0.tasks, u.id = t.id ∧ u.agentId = t.agentId
              ∧ (u.status = TaskStatus.pending ∨ u.status = TaskStatus.queued) := by
            intro t ht
            obtain ⟨hmem, hstat⟩ := readyFromTasks_mem t ht
            exact ⟨t, hmem, rfl, rfl, hstat⟩
          have hnd2 := @readyFromTasks_ids_nodup st0.running.length
            st0.tasks cfg.maxConcurrency h0.1.ids_nodup
          have h1 := @schedInv_dispatchAll cfg getAgent now
            (readyFromTasks st0.running.length st0.tasks cfg.maxConcurrency)
            st0 evs h0 hready2 hnd2
          have h2 := @schedInv_drainAll cfg getAgent now
            (dispatchAll cfg getAgent now st0 (readyFromTasks st0.running.length
              st0.tasks cfg.maxConcurrency)).1.completedResults
            (dispatchAll cfg getAgent now st0 (readyFromTasks st0.running.length
              st0.tasks cfg.maxConcurrency)).1
            (evs ++ (dispatchAll cfg getAgent now st0 (readyFromTasks
              st0.running.length st0.tasks cfg.maxConcurrency)).2)
            h1 (fun e he => he) h1.1.keys_nodup
          have h3 := ih _ _ h2
          simp only [schedLoop]
          rw [← hst0, if_pos hcond, if_neg hps, if_neg hready]
          refine schedInv_congr_events h3 ?_
          intro tid
          simp [eventsOf_append, hgate tid]
    · simp only [schedLoop]
      rw [← hst0, if_neg hcond]
      simpa using h0

/-- The immutable identity of a task: its id and agent. -/
def taskKey (t : QueueTask) : String × String :=
  (t.id, t.agentId)

lemma updTask_map_key (tasks : List QueueTask) (tid : String)
    (f : QueueTask → QueueTask) (hf : ∀ u, taskKey (f u) = taskKey u) :
    (updTask tasks tid f).map taskKey = tasks.map taskKey := by
  induction tasks with
  | nil => rfl
  | cons t ts ih =>
    by_cases h : t.id = tid <;> simp [updTask, h, hf] at ih ⊢ <;> exact ih

lemma applyExternal_map_key (inp : StepInput) (st : SchedState) :
    (applyExternal inp st).tasks.map taskKey = st.tasks.map taskKey := by
  have hstop : (if inp.stop then applyStop st else st).tasks.map taskKey
      = st.tasks.map taskKey := by
    by_cases hs : inp.stop <;> simp [hs, applyStop]
  have htimer : ∀ (fires : List String) (s : SchedState),
      (fires.foldl applyTimer s).tasks.map taskKey = s.tasks.map taskKey := by
    intro fires
    induction fires with
    | nil => intro s; rfl
    | cons f fs ih =>
        intro s
        rw [List.foldl_cons, ih]
        by_cases hm : f ∈ s.retryTimers
        · simp only [applyTimer, if_pos hm]
          exact updTask_map_key _ _ _ (fun u => rfl)
        · simp [applyTimer, hm]
  have harr : ∀ (arrs : List (String × TaskOutcome)) (s : SchedState),
      (arrs.foldl applyArrival s).tasks.map taskKey = s.tasks.map taskKey := by
    intro arrs
    induction arrs with
    | nil => intro s; rfl
    | cons a as ih =>
        intro s
        rw [List.foldl_cons, ih]
        by_cases hm : a.1 ∈ s.running <;> simp [applyArrival, hm]
  simp only [applyExternal]
  rw [harr, htimer, hstop]

lemma dispatchTask_map_key (cfg : TaskQueueSettings) (getAgent : String → Option AgentRef)
    (now : Nat) (st : SchedState) (t : QueueTask) :
    (dispatchTask cfg getAgent now st t).1.tasks.map taskKey
      = st.tasks.map taskKey := by
  obtain ⟨f, hf, htasks⟩ := dispatchTask_tasks cfg getAgent now st t
  rw [htasks]
  exact updTask_map_key _ _ _ (fun u => by
    have h1 := (hf u).1
    have h2 := (hf u).2.1
    simp [taskKey, h1, h2])

lemma dispatchAll_map_key (cfg : TaskQueueSettings) (getAgent : String → Option AgentRef)
    (now : Nat) :
    ∀ (ts : List QueueTask) (st : SchedState),
      (dispatchAll cfg getAgent now st ts).1.tasks.map taskKey
        = st.tasks.map taskKey := by
  intro ts
  induction ts with
  | nil => intro st; rfl
  | cons t ts ih =>
      intro st
      simp only [dispatchAll]
      rw [ih, dispatchTask_map_key]

lemma drainEntry_map_key (now : Nat) (st : SchedState) (e : String × TaskOutcome) :
    (drainEntry now st e).1.tasks.map taskKey = st.tasks.map taskKey := by
  cases hfind : st.tasks.find? (fun t => t.id == e.1) with
  | none => simp [drainEntry, hfind]
  | some task =>
      cases hout : e.2 with
      | result r =>
          simp only [drainEntry, hfind, hout]
          exact updTask_map_key _ _ _ (fun u => rfl)
      | error err =>
          by_cases hretry : err.retryable ∧ task.retryCount < task.maxRetries
          · simp only [drainEntry, hfind, hout, if_pos hretry]
            exact updTask_map_key _ _ _ (fun u => rfl)
          · simp only [drainEntry, hfind, hout, if_neg hretry]
            exact updTask_map_key _ _ _ (fun u => rfl)

lemma drainAll_map_key (now : Nat) :
    ∀ (es : List (String × TaskOutcome)) (st : SchedState),
      (drainAll now st es).1.tasks.map taskKey = st.tasks.map taskKey := by
  intro es
  induction es with
  | nil => intro st; rfl
  | cons e es ih =>
      intro st
      simp only [drainAll]
      rw [ih, drainEntry_map_key]

lemma schedLoop_map_key (cfg : TaskQueueSettings) (getAgent : String → Option AgentRef)
    (now : Nat) :
    ∀ (inputs : List StepInput) (st : SchedState),
      (schedLoop cfg getAgent now inputs st).1.tasks.map taskKey
        = st.tasks.map taskKey := by
  intro inputs
  induction inputs with
  | nil => intro st; rfl
  | cons inp rest ih =>
    intro st
    simp only [schedLoop]
    by_cases hcond : (hasWorkRemaining (applyExternal inp st).tasks
        && !(applyExternal inp st).isStopped) = true
    · rw [if_pos hcond]
      by_cases hps : (inp.pause && inp.stopDuringPause) = true
      · rw [if_pos hps]
        simp only [applyStop]
        exact applyExternal_map_key inp st
      · rw [if_neg hps]
        by_cases hready : (readyFromTasks (applyExternal inp st).running.length
            (applyExternal inp st).tasks cfg.maxConcurrency).isEmpty = true
        · rw [if_pos hready]
          by_cases hrun : (applyExternal inp st).running.length > 0
          · rw [if_pos hrun]
            simp only []
            rw [ih, applyExternal_map_key]
          · rw [if_neg hrun]
            exact applyExternal_map_key inp st
        · rw [if_neg hready]
          simp only []
          rw [ih, drainAll_map_key, dispatchAll_map_key, applyExternal_map_key]
    · rw [if_neg hcond]
      exact applyExternal_map_key inp st

lemma executeQueueModel_state (queue : TaskQueue) (getAgent : String → Option AgentRef)
    (inputs : List StepInput) (now : Nat) :
    (executeQueueModel queue getAgent inputs now).state
      = (schedLoop queue.settings getAgent now inputs (initSchedState queue)).1 := by
  simp only [executeQueueModel]
  split_ifs <;> rfl

lemma eventsOf_executeQueueModel (queue : TaskQueue) (getAgent : String → Option AgentRef)
    (inputs : List StepInput) (now : Nat) (tid : String) :
    eventsOf tid (executeQueueModel queue getAgent inputs now).events
      = eventsOf tid
          (schedLoop queue.settings getAgent now inputs (initSchedState queue)).2.1 := by
  simp only [executeQueueModel]
  split_ifs <;> simp [eventsOf, List.filter_append, isTaskEvent]

lemma terminalCount_append (tid : String) (a b : List SchedEvent) :
    terminalCount tid (a ++ b) = terminalCount tid a + terminalCount tid b := by
  simp [terminalCount, List.filter_append]

lemma shapeByStatus_terminalCount {getAgent : String → Option AgentRef}
    {t : QueueTask} {r : List SchedEvent}
    (h : shapeByStatus getAgent t r) : terminalCount t.id r ≤ 1 := by
  cases hs : t.status <;> simp only [shapeByStatus, hs] at h
  · simp [altShape_terminalCount h]
  · simp [altShape_terminalCount h]
  · simp [altShape_terminalCount h]
  · rcases h with ⟨l, res, hl, rfl⟩
    rw [terminalCount_append, altShape_terminalCount hl]
    simp [terminalCount, isTerminalEvent]
  · rcases h with ⟨l, err, hl, rfl⟩ | ⟨err, rfl, _⟩
    · rw [terminalCount_append, altShape_terminalCount hl]
      simp [terminalCount, isTerminalEvent]
    · simp [terminalCount, isTerminalEvent]
  · simp [altShape_terminalCount h]
  · subst h; simp [terminalCount]

lemma traceShape_cases {getAgent : String → Option AgentRef} {u : QueueTask}
    {r : List SchedEvent} (h : shapeByStatus getAgent u r) :
    AltShape u.id false r ∨ AltShape u.id true r
    ∨ (∃ l res, AltShape u.id true l ∧ r = l ++ [SchedEvent.task_completed u.id res])
    ∨ (∃ l err, AltShape u.id true l ∧ r = l ++ [SchedEvent.task_failed u.id err])
    ∨ (∃ err, r = [SchedEvent.task_failed u.id err] ∧ getAgent u.agentId = none) := by
  cases hs : u.status <;> simp only [shapeByStatus, hs] at h
  · exact Or.inl h
  · exact Or.inl h
  · exact Or.inr (Or.inl h)
  · exact Or.inr (Or.inr (Or.inl h))
  · rcases h with hfin | hsyn
    · exact Or.inr (Or.inr (Or.inr (Or.inl hfin)))
    · exact Or.inr (Or.inr (Or.inr (Or.inr hsyn)))
  · exact Or.inl h
  · subst h; exact Or.inl AltShape.nil

lemma schedInv_initial (queue : TaskQueue) (getAgent : String → Option AgentRef)
    (hnd : (queue.tasks.map (fun t => t.id)).Nodup)
    (hstat : ∀ t ∈ queue.tasks, t.status = TaskStatus.pending ∨
      t.status = TaskStatus.queued ∨ t.status = TaskStatus.cancelled)
    (hrc : ∀ t ∈ queue.tasks, t.retryCount = 0) :
    SchedInv queue.settings getAgent (initSchedState queue) [] := by
  constructor
  · exact
      { ids_nodup := hnd
        running_nodup := List.nodup_nil
        keys_nodup := List.nodup_nil
        timers_nodup := List.nodup_nil
        run_status := fun t _ h => absurd h (List.not_mem_nil _)
        key_status := fun t _ h => absurd h (List.not_mem_nil _)
        timer_status := fun t _ h => absurd h (List.not_mem_nil _)
        run_key_disjoint := fun tid h => absurd h (List.not_mem_nil _)
        rc_le := fun t ht => by rw [hrc t ht]; exact Nat.zero_le _
        rc_pos_mr := fun t ht hpos => absurd hpos (by rw [hrc t ht]; exact lt_irrefl 0)
        dispatched_mr := fun t _ h => by
          rcases h with h | h <;> exact absurd h (List.not_mem_nil _) }
  · intro t ht
    have hre : eventsOf t.id ([] : List SchedEvent) = [] := rfl
    constructor
    · rcases hstat t ht with hs | hs | hs
      · rw [hre]; simp only [shapeByStatus, hs]; exact AltShape.nil
      · rw [hre]; simp only [shapeByStatus, hs]; exact AltShape.nil
      · rw [hre]; simp only [shapeByStatus, hs]
    · intro _
      exact Or.inl hre

lemma exists_final_task (queue : TaskQueue) (getAgent : String → Option AgentRef)
    (inputs : List StepInput) (now : Nat) {t : QueueTask} (ht : t ∈ queue.tasks) :
    ∃ u ∈ (schedLoop queue.settings getAgent now inputs (initSchedState queue)).1.tasks,
      u.id = t.id ∧ u.agentId = t.agentId := by
  have hkey := schedLoop_map_key queue.settings getAgent now inputs (initSchedState queue)
  have hmem : taskKey t ∈ (schedLoop queue.settings getAgent now inputs
      (initSchedState queue)).1.tasks.map taskKey := by
    rw [hkey]
    exact List.mem_map.2 ⟨t, ht, rfl⟩
  rcases List.mem_map.1 hmem with ⟨u, hu, hequ⟩
  exact ⟨u, hu, congrArg Prod.fst hequ, congrArg Prod.snd hequ⟩

/-! ## C2: per-task event sequence -/

/-- Checker for the tail of the claimed per-task pattern: zero or more
`task_retrying` events followed by exactly one terminal event. -/
def claimTail (tid : String) : List SchedEvent → Bool
  | [SchedEvent.task_completed t _] => t == tid
  | [SchedEvent.task_failed t _] => t == tid
  | SchedEvent.task_retrying t _ _ :: rest => t == tid && claimTail tid rest
  | _ => false

/-- Checker for the claimed per-task pattern: one `task_started`, then
retries, then exactly one terminal event. -/
def perTaskClaimShape (tid : String) : List SchedEvent → Bool
  | SchedEvent.task_started t _ :: rest => t == tid && claimTail tid rest
  | _ => false

/-- The proposition claim C2 makes: in every finished `executeQueue` run,
every task that the run emitted any event for follows the pattern
`task_started · task_retrying* · (task_completed | task_failed)`. -/
def c2Claim : Prop :=
  ∀ (queue : TaskQueue) (getAgent : String → Option AgentRef)
    (inputs : List StepInput) (now : Nat),
    (executeQueueModel queue getAgent inputs now).finished = true →
    ∀ t ∈ queue.tasks,
      eventsOf t.id (executeQueueModel queue getAgent inputs now).events ≠ [] →
      perTaskClaimShape t.id
        (eventsOf t.id (executeQueueModel queue getAgent inputs now).events) = true

/-- A do-nothing loop iteration: no stop, no pause, no timer fires, no
invocation completions. -/
def noInput : StepInput :=
  { stop := false, pause := false, stopDuringPause := false,
    timerFires := [], arrivals := [] }

/-- A pending task addressed to an agent id no agent resolves to. -/
def c2BadTask : QueueTask :=
  { id := "t1", agentId := "ghost", message := "m", status := TaskStatus.pending,
    priority := 1, estimatedComplexity := none, retryCount := 0, maxRetries := 3,
    createdAt := 0, startedAt := none, completedAt := none, result := none,
    error := none, metadata := none }

/-- A queue holding only `c2BadTask`. -/
def c2BadQueue : TaskQueue :=
  { id := "q1", name := "n", description := none, tasks := [c2BadTask],
    settings := { maxConcurrency := 3, retryCount := 3, retryDelay := 0,
                  timeoutPerTask := 0 },
    status := QueueStatus.idle, createdAt := 0, startedAt := none,
    completedAt := none, metrics := createInitialMetrics 1 }

/-- C2 counterexample: a task whose agent cannot be resolved is failed by
the dispatch step with a synthesized `task_failed` and no preceding
`task_started`, so its event restriction violates the claimed
`task_started · task_retrying* · terminal` pattern. -/
theorem executeQueue_event_pattern_counterexample : ¬ c2Claim := by
  intro h
  have := h c2BadQueue (fun _ => none) [noInput, noInput] 0 (by decide)
    c2BadTask (by decide) (by decide)
  exact absurd this (by decide)

/-- The corrected per-task pattern: the event restriction is an
alternation `(task_started · task_retrying)*`, possibly still open after
a dangling `task_started`, possibly closed by one final terminal event —
or, for a task whose agent is unresolvable, a bare synthesized
`task_failed`; in every case at most one terminal event. -/
def taskEventPattern (getAgent : String → Option AgentRef) (t : QueueTask)
    (r : List SchedEvent) : Prop :=
  (AltShape t.id false r ∨ AltShape t.id true r
    ∨ (∃ l res, AltShape t.id true l ∧ r = l ++ [SchedEvent.task_completed t.id res])
    ∨ (∃ l err, AltShape t.id true l ∧ r = l ++ [SchedEvent.task_failed t.id err])
    ∨ (∃ err, r = [SchedEvent.task_failed t.id err] ∧ getAgent t.agentId = none))
  ∧ terminalCount t.id r ≤ 1

/-- C2 (amended): for every `executeQueue` run over a fresh queue (no
duplicate task ids, only pending/queued/cancelled tasks, zero retry
counts), each task's event restriction is a `task_started ·
task_retrying` alternation closed by at most one terminal event; a
terminal event always comes last; an unresolvable-agent task gets a bare
`task_failed`. The spec's guarantee of exactly one terminal event does
not hold: the drain step is skipped whenever the ready set is empty, so
a finished run may leave tasks with a dangling `task_started` (or no
events at all) and no terminal event. -/
theorem executeQueue_task_event_pattern
    (queue : TaskQueue) (getAgent : String → Option AgentRef)
    (inputs : List StepInput) (now : Nat)
    (hnd : (queue.tasks.map (fun t => t.id)).Nodup)
    (hstat : ∀ t ∈ queue.tasks, t.status = TaskStatus.pending ∨
      t.status = TaskStatus.queued ∨ t.status = TaskStatus.cancelled)
    (hrc : ∀ t ∈ queue.tasks, t.retryCount = 0) :
    ∀ t ∈ queue.tasks,
      taskEventPattern getAgent t
        (eventsOf t.id (executeQueueModel queue getAgent inputs now).events) := by
  intro t ht
  have hinv0 := schedInv_initial queue getAgent hnd hstat hrc
  have hinv := @schedInv_schedLoop queue.settings getAgent now inputs
    (initSchedState queue) [] hinv0
  rw [List.nil_append] at hinv
  rcases exists_final_task queue getAgent inputs now ht with ⟨u, hu, huid, huag⟩
  have hts := hinv.2 u hu
  have hc := traceShape_cases hts.1
  have htc := shapeByStatus_terminalCount hts.1
  rw [eventsOf_executeQueueModel queue getAgent inputs now t.id]
  rw [huid, huag] at hc
  rw [huid] at htc
  exact ⟨hc, htc⟩

/-- The agent every witness run resolves to. -/
def theAgentRef : AgentRef :=
  { id := "a1", apiEndpoint := "http://localhost:1", workingDirectory := "/w" }

/-- The witness agent registry: only agent `a1` exists. -/
def c2GetAgent : String → Option AgentRef :=
  fun a => if a = "a1" then some theAgentRef else none

/-- First pending task of the witness queue. -/
def c2Task1 : QueueTask :=
  { id := "t1", agentId := "a1", message := "m1", status := TaskStatus.pending,
    priority := 1, estimatedComplexity := none, retryCount := 0, maxRetries := 3,
    createdAt := 0, startedAt := none, completedAt := none, result := none,
    error := none, metadata := none }

/-- Second pending task of the witness queue. -/
def c2Task2 : QueueTask :=
  { id := "t2", agentId := "a1", message := "m2", status := TaskStatus.pending,
    priority := 2, estimatedComplexity := none, retryCount := 0, maxRetries := 3,
    createdAt := 0, startedAt := none, completedAt := none, result := none,
    error := none, metadata := none }

/-- A two-task single-concurrency queue for the witness runs. -/
def c2GoodQueue : TaskQueue :=
  { id := "q1", name := "n", description := none, tasks := [c2Task1, c2Task2],
    settings := { maxConcurrency := 1, retryCount := 3, retryDelay := 0,
                  timeoutPerTask := 0 },
    status := QueueStatus.idle, createdAt := 0, startedAt := none,
    completedAt := none, metrics := createInitialMetrics 2 }

/-- The successful invocation outcome used by the witness runs. -/
def c2Result : TaskResult :=
  { type := TaskResultType.success, content := "ok", sessionId := none,
    completedAt := 7 }

/-- Witness schedule: dispatch `t1`; its result arrives while `t2` is
ready, so the drain runs and completes `t1`; `t2`'s result arrives with
nothing ready, so the loop breaks. -/
def c2Inputs : List StepInput :=
  [noInput,
   { stop := false, pause := false, stopDuringPause := false, timerFires := [],
     arrivals := [("t1", TaskOutcome.result c2Result)] },
   { stop := false, pause := false, stopDuringPause := false, timerFires := [],
     arrivals := [("t2", TaskOutcome.result c2Result)] }]

theorem executeQueue_task_event_pattern_witness :
    ((c2GoodQueue.tasks.map (fun t => t.id)).Nodup
      ∧ (∀ t ∈ c2GoodQueue.tasks, t.status = TaskStatus.pending ∨
          t.status = TaskStatus.queued ∨ t.status = TaskStatus.cancelled)
      ∧ (∀ t ∈ c2GoodQueue.tasks, t.retryCount = 0))
    ∧ ∀ t ∈ c2GoodQueue.tasks,
        taskEventPattern c2GetAgent t
          (eventsOf t.id (executeQueueModel c2GoodQueue c2GetAgent c2Inputs 0).events) :=
  ⟨⟨by decide, by decide, by decide⟩,
   executeQueue_task_event_pattern c2GoodQueue c2GetAgent c2Inputs 0
     (by decide) (by decide) (by decide)⟩

/-! ## C3: `retryCount ≤ maxRetries` -/

/-- C3 (confirmed): tasks are created by `handleCreateQueue` with
`retryCount = 0` (hence `retryCount ≤ maxRetries`), and after any
modelled `executeQueue` run over a fresh queue — no duplicate task ids,
only pending/queued/cancelled tasks, zero retry counts — every task
still satisfies `retryCount ≤ maxRetries`: the scheduler increments
`retryCount` only in the drain retry branch, which requires
`retryCount < maxRetries`. -/
theorem retryCount_le_maxRetries
    (body : CreateQueueRequest) (queueId : String) (taskIdGen : Nat → String)
    (cnow : Nat) (q : TaskQueue)
    (queue : TaskQueue) (getAgent : String → Option AgentRef)
    (inputs : List StepInput) (now : Nat)
    (hq : handleCreateQueue body queueId taskIdGen cnow = some q)
    (hnd : (queue.tasks.map (fun t => t.id)).Nodup)
    (hstat : ∀ t ∈ queue.tasks, t.status = TaskStatus.pending ∨
      t.status = TaskStatus.queued ∨ t.status = TaskStatus.cancelled)
    (hrc : ∀ t ∈ queue.tasks, t.retryCount = 0) :
    (∀ t ∈ q.tasks, t.retryCount = 0 ∧ t.retryCount ≤ t.maxRetries)
    ∧ ∀ t ∈ (executeQueueModel queue getAgent inputs now).state.tasks,
        t.retryCount ≤ t.maxRetries := by
  constructor
  · intro t ht
    simp only [handleCreateQueue] at hq
    by_cases hvalid : (body.name.isEmpty || body.tasks.isEmpty) = true
    · rw [if_pos hvalid] at hq; cases hq
    · rw [if_neg hvalid] at hq
      have htasks : q.tasks
          = mapWithIndex (createTask body queueId taskIdGen cnow) 0 body.tasks := by
        cases hq; rfl
      rw [htasks] at ht
      rcases mem_mapWithIndex _ _ _ _ ht with ⟨j, input, hj, hmem, rfl⟩
      exact ⟨rfl, Nat.zero_le _⟩
  · have hinv0 := schedInv_initial queue getAgent hnd hstat hrc
    have hinv := @schedInv_schedLoop queue.settings getAgent now inputs
      (initSchedState queue) [] hinv0
    rw [executeQueueModel_state]
    exact hinv.1.rc_le

theorem retryCount_le_maxRetries_witness :
    (handleCreateQueue requestWithDefaultPriority "q1" (fun _ => "t1") 0
        = some queueWithDefaultPriority
      ∧ (c2GoodQueue.tasks.map (fun t => t.id)).Nodup
      ∧ (∀ t ∈ c2GoodQueue.tasks, t.status = TaskStatus.pending ∨
          t.status = TaskStatus.queued ∨ t.status = TaskStatus.cancelled)
      ∧ (∀ t ∈ c2GoodQueue.tasks, t.retryCount = 0))
    ∧ ((∀ t ∈ queueWithDefaultPriority.tasks,
          t.retryCount = 0 ∧ t.retryCount ≤ t.maxRetries)
      ∧ ∀ t ∈ (executeQueueModel c2GoodQueue c2GetAgent c2Inputs 0).state.tasks,
          t.retryCount ≤ t.maxRetries) :=
  ⟨⟨by decide, by decide, by decide, by decide⟩,
   retryCount_le_maxRetries requestWithDefaultPriority "q1" (fun _ => "t1") 0
     queueWithDefaultPriority c2GoodQueue c2GetAgent c2Inputs 0
     (by decide) (by decide) (by decide) (by decide)⟩
